import Mathlib

/-!
# k8scomm2hugo: the fetch / transform / write pipeline

A shallow embedding of `internal/builder/category.go` and
`internal/builder/product.go`.  The Go code talks to three outside parties:
an HTTP server, the file system and the wall clock.  They are gathered in an
environment record `Env`; the state the program can change (files, the list
of requests handed to the HTTP client, the three output streams) is the
record `World`, threaded explicitly through every function.  `os.Exit` and
run-time panics are constructors of `Result`.
-/

namespace K8sComm2Hugo

/-! ## Data model (`category.go` 123-138, `product.go` 180-241) -/

/-- Go `float64`, carried as its IEEE-754 bit pattern: the program only moves
these values around and never computes with them. -/
structure Float64 where
  bits : Nat
deriving DecidableEq, Repr

/-- Go `time.Location`, as far as this program meets it. -/
inductive Location where
  | UTC
  | Local
deriving DecidableEq, Repr

/-- Go `time.Time`, as calendar fields in its location. -/
structure Time where
  year : Nat
  month : Nat
  day : Nat
  hour : Nat
  minute : Nat
  second : Nat
  nanosecond : Nat
  loc : Location
deriving DecidableEq, Repr

/-- The zero value `time.Time{}`: January 1, year 1, 00:00:00 UTC. -/
def Time.zero : Time :=
  { year := 1, month := 1, day := 1, hour := 0, minute := 0, second := 0,
    nanosecond := 0, loc := Location.UTC }

structure Category where
  Id : Int
  ParentId : Int
  Slug : String
  Name : String
  Description : String
  MetaTitle : String
  MetaDescription : String
  MetaKeywords : String
  Depth : Int
  SortOrder : Int
deriving DecidableEq, Repr

structure GetAllCategoriesResponse where
  Categories : List Category
deriving DecidableEq, Repr

structure CategoryPair where
  Slug : String
  Name : String
deriving DecidableEq, Repr

structure Price where
  Amount : Float64
  SalePrice : Float64
  FormattedSalePrice : String
  RetailPrice : Float64
  FormattedRetailPrice : String
  Currency : String
deriving DecidableEq, Repr

structure Variant where
  IsDefault : Bool
  Sku : String
  Weight : Float64
  Height : Float64
  Width : Float64
  Depth : Float64
  Price : Price
deriving DecidableEq, Repr

structure Asset where
  VariantId : Int
  Name : String
  DisplayName : String
  Url : String
  Kind : Int
  ContentType : String
  SortOrder : Int
  Sizes : List (String × String)
deriving DecidableEq, Repr

structure Product where
  Slug : String
  Title : String
  Name : String
  ShortDescription : String
  Description : String
  MetaTitle : String
  MetaDescription : String
  MetaKeywords : String
  Variants : List Variant
  DefaultImage : Asset
  Images : List Asset
  Categories : List CategoryPair
  Date : Time
  Tags : List String
deriving DecidableEq, Repr

structure GetAllProductsResponse where
  Products : List Product
  TotalRecords : Int
  TotalPages : Int
deriving DecidableEq, Repr

/-! ## The world the program acts on -/

/-- An HTTP request as built by `http.NewRequest` followed by
`req.Header.Set("Store-Key", ...)`. -/
structure Request where
  method : String
  url : String
  storeKey : String
deriving DecidableEq, Repr

/-- What `client.Do` followed by `ioutil.ReadAll(resp.Body)` can give:
`client.Do` fails, or there is a response with a status code, a status line
and a body that is read entirely or fails to be read. -/
inductive HttpResult where
  | transportError (err : String)
  | response (statusCode : Nat) (status : String) (body : Except String String)

/-- Regular files (path and content, in order of creation) and directories,
apart from the working directory and the root, which always exist. -/
structure FileSystem where
  files : List (String × String)
  dirs : List String
deriving DecidableEq, Repr

structure World where
  fs : FileSystem
  requests : List Request
  stdout : List String
  stderr : List String
  log : List String
deriving DecidableEq, Repr

/-- How a call ends: it returns a value, the process leaves through
`os.Exit`, a run-time panic unwinds it, or the model ran out of loop fuel. -/
inductive Result (α : Type) where
  | ok (a : α) (w : World)
  | osExit (code : Nat) (w : World)
  | goPanic (msg : String) (w : World)
  | outOfFuel (w : World)

/-- The state of the world when the call ended. -/
def Result.world {α : Type} : Result α → World
  | Result.ok _ w => w
  | Result.osExit _ w => w
  | Result.goPanic _ w => w
  | Result.outOfFuel w => w

/-- The exit status, when the process left through `os.Exit`. -/
def Result.exitCode {α : Type} : Result α → Option Nat
  | Result.osExit code _ => some code
  | _ => none

/-- The value returned, when the call returned. -/
def Result.value {α : Type} : Result α → Option α
  | Result.ok a _ => some a
  | _ => none

/-- Everything the program asks of its surroundings and of its libraries.
`sprintf` is `fmt.Sprintf` with a format given at run time and two integer
operands, `newRequestError` answers `some err` when `http.NewRequest(method,
url, nil)` rejects the URL, `roundTrip` is `client.Do` for a client that has
sent the listed requests before, the `unmarshal...` and `yaml...` fields are
the JSON decoder and the YAML encoder, and the other `...Error` fields answer
`some err` when the operating system refuses the call. -/
structure Env where
  sprintf : String → Int → Int → String
  newRequestError : String → String → Option String
  roundTrip : List Request → Request → HttpResult
  now : World → Time
  pathClean : String → String
  mkdirAllError : FileSystem → String → Option String
  truncateError : FileSystem → String → Option String
  createError : FileSystem → String → Option String
  writeError : FileSystem → String → String → Option String
  closeError : FileSystem → String → Option String
  unmarshalCategories : String → Except String GetAllCategoriesResponse
  unmarshalProducts : String → Except String GetAllProductsResponse
  unmarshalProduct : String → Except String (Option Product)
  yamlCategory : Category → Except String String
  yamlProduct : Product → Except String String

/-! ## Output streams -/

/-- Writes to standard output (`fmt.Println`). -/
def World.print (w : World) (s : String) : World :=
  { w with stdout := w.stdout ++ [s] }

/-- Writes to standard error (`fmt.Fprintf(os.Stderr, ...)`). -/
def World.eprint (w : World) (s : String) : World :=
  { w with stderr := w.stderr ++ [s] }

/-- Writes through the standard logger (`log.Printf`). -/
def World.logPrint (w : World) (s : String) : World :=
  { w with log := w.log ++ [s] }

/-- The text of `fmt.Fprintf(os.Stderr, "\nerror: %s\n\n", err.Error())`. -/
def errorBanner (err : String) : String :=
  "\nerror: " ++ err ++ "\n\n"

/-- The text of `fmt.Fprintf(os.Stderr, "\n\nerror: %s\n%s\n", resp.Status, body)`. -/
def statusBanner (status body : String) : String :=
  "\n\nerror: " ++ status ++ "\n" ++ body ++ "\n"

/-! ## File system calls -/

/-- Content of the regular file at `p`, if there is one. -/
def lookupFile : List (String × String) → String → Option String
  | [], _ => none
  | (q, c) :: rest, p => if q = p then some c else lookupFile rest p

/-- Replaces the content of the file at `p`, or adds the file after the
existing ones. -/
def setFile : List (String × String) → String → String → List (String × String)
  | [], p, c => [(p, c)]
  | (q, d) :: rest, p, c => if q = p then (q, c) :: rest else (q, d) :: setFile rest p c

/-- Appends to the content of the file at `p`. -/
def appendFile : List (String × String) → String → String → List (String × String)
  | [], p, c => [(p, c)]
  | (q, d) :: rest, p, c =>
    if q = p then (q, d ++ c) :: rest else (q, d) :: appendFile rest p c

/-- The part of a path before its last element, as `os.MkdirAll` cuts it:
the separators at the end are skipped, then the last element and the
separators before it.  `none` when nothing or only the root is left, that is
when the element lies in the working directory or in the root. -/
def parentPath (p : String) : Option String :=
  let noTrail := p.data.reverse.dropWhile (fun c => c == '/')
  let upTo := noTrail.dropWhile (fun c => c != '/')
  let parent := upTo.dropWhile (fun c => c == '/')
  if parent.isEmpty then none else some (String.mk parent.reverse)

/-- The directories `os.MkdirAll(p)` goes through, outermost first and `p`
last.  A parent is shorter than its child, so the length of `p` is fuel
enough. -/
def mkdirChainAux : Nat → String → List String
  | 0, p => [p]
  | fuel + 1, p =>
    match parentPath p with
    | none => [p]
    | some q => mkdirChainAux fuel q ++ [p]

def mkdirChain (p : String) : List String := mkdirChainAux p.length p

/-- Paths are compared as written: `path.Clean` has made them canonical
before they reach the file system. -/
def isRegularFile (fs : FileSystem) (p : String) : Bool := (lookupFile fs.files p).isSome

/-- Whether `os.Stat(p)` answers an error that is `os.ErrNotExist`: nothing
is at `p`, and the way to `p` does not go through a regular file (the error
is then `ENOTDIR`). -/
def osStatNotExist (fs : FileSystem) (p : String) : Bool :=
  (mkdirChain p).all (fun q => !isRegularFile fs q) && !fs.dirs.contains p

/-- Go `os.MkdirAll(dir, os.ModePerm)`: a directory already there is not an
error; otherwise every missing directory on the way to `dir` is made, and a
regular file at `dir` or on the way to it is the error `ENOTDIR`. -/
def osMkdirAll (env : Env) (fs : FileSystem) (dir : String) : Except String FileSystem :=
  if fs.dirs.contains dir then Except.ok fs
  else
    match (mkdirChain dir).find? (fun q => isRegularFile fs q) with
    | some q => Except.error ("mkdir " ++ q ++ ": not a directory")
    | none =>
      match env.mkdirAllError fs dir with
      | some err => Except.error err
      | none =>
        Except.ok
          { fs with dirs := fs.dirs ++ (mkdirChain dir).filter (fun q => !fs.dirs.contains q) }

/-- Go `os.Truncate(p, 0)`: needs a regular file at `p`. -/
def osTruncate (env : Env) (fs : FileSystem) (p : String) : Except String FileSystem :=
  match lookupFile fs.files p with
  | none =>
    if fs.dirs.contains p then Except.error ("truncate " ++ p ++ ": is a directory")
    else Except.error ("truncate " ++ p ++ ": not a directory")
  | some _ =>
    match env.truncateError fs p with
    | some err => Except.error err
    | none => Except.ok { fs with files := setFile fs.files p "" }

/-- Whether the directory that is to hold `p` exists. -/
def parentExists (fs : FileSystem) (p : String) : Bool :=
  match parentPath p with
  | none => true
  | some q => fs.dirs.contains q

/-- Go `os.Create(p)`: opens with `O_RDWR|O_CREATE|O_TRUNC`, so on success the
file exists and is empty.  It fails on a directory and when the directory that
is to hold the file does not exist, with `ENOTDIR` when the way to it goes
through a regular file and `ENOENT` otherwise. -/
def osCreate (env : Env) (fs : FileSystem) (p : String) : Except String FileSystem :=
  if fs.dirs.contains p then
    Except.error ("open " ++ p ++ ": is a directory")
  else if !parentExists fs p then
    if (mkdirChain p).any (fun q => q != p && isRegularFile fs q) then
      Except.error ("open " ++ p ++ ": not a directory")
    else Except.error ("open " ++ p ++ ": no such file or directory")
  else
    match env.createError fs p with
    | some err => Except.error err
    | none => Except.ok { fs with files := setFile fs.files p "" }

/-- A write of `data` at the end of the open file `p`. -/
def fileWrite (env : Env) (fs : FileSystem) (p data : String) : Except String FileSystem :=
  match env.writeError fs p data with
  | some err => Except.error err
  | none => Except.ok { fs with files := appendFile fs.files p data }

/-- The call `f.WriteString(data)` with its results dropped, as the builders
call it: a failed write leaves the file as it was and goes unnoticed. -/
def fileWriteStringUnchecked (env : Env) (fs : FileSystem) (p data : String) : FileSystem :=
  match fileWrite env fs p data with
  | Except.error _ => fs
  | Except.ok fs1 => fs1

/-- The body shared by `categoryBuilder.write` and `productBuilder.write`
(`category.go` 48-77, `product.go` 52-84), `encoded` being what the YAML
encoder makes of the document. -/
def writeDocument (env : Env) (dir filename : String) (encoded : Except String String)
    (w : World) : Result Unit :=
  let mdFile := env.pathClean (dir ++ "/" ++ filename)
  let w1 :=
    if osStatNotExist w.fs mdFile then w
    else
      match osTruncate env w.fs mdFile with
      | Except.error err => w.logPrint ("Failed to truncate page: " ++ mdFile ++ " " ++ err)
      | Except.ok fs1 => { w with fs := fs1 }
  match osCreate env w1.fs mdFile with
  | Except.error err => Result.osExit 1 (w1.eprint (errorBanner err))
  | Except.ok fs2 =>
    let fs3 := fileWriteStringUnchecked env fs2 mdFile "---\n"
    match encoded with
    | Except.error err => Result.osExit 1 ({ w1 with fs := fs3 }.eprint (errorBanner err))
    | Except.ok yaml =>
      match fileWrite env fs3 mdFile yaml with
      | Except.error err =>
        Result.osExit 1 ({ w1 with fs := fs3 }.eprint (errorBanner ("yaml: write error: " ++ err)))
      | Except.ok fs4 =>
        let fs5 := fileWriteStringUnchecked env fs4 mdFile "---"
        match env.closeError fs5 mdFile with
        | some err => Result.osExit 1 ({ w1 with fs := fs5 }.eprint (errorBanner err))
        | none => Result.ok () { w1 with fs := fs5 }

/-! ## Categories (`category.go`) -/

structure categoryBuilder where
  apiURL : String
  storeKey : String
  outputDir : String
  baseName : String
deriving DecidableEq, Repr

def NewCategoryBuilder (apiURL storeKey outputDir baseName : String) : categoryBuilder :=
  { apiURL := apiURL, storeKey := storeKey, outputDir := outputDir, baseName := baseName }

def categoryBuilder.write (env : Env) (_b : categoryBuilder) (dir filename : String)
    (category : Category) (w : World) : Result Unit :=
  writeDocument env dir filename (env.yamlCategory category) w

def categoryBuilder.getCategories (env : Env) (b : categoryBuilder) (w : World) :
    Result (List Category) :=
  let url := b.apiURL ++ "/v1/categories"
  match env.newRequestError "GET" url with
  | some err => Result.osExit 1 (w.eprint (errorBanner err))
  | none =>
    let req : Request := { method := "GET", url := url, storeKey := b.storeKey }
    let w1 := { w with requests := w.requests ++ [req] }
    match env.roundTrip w.requests req with
    | HttpResult.transportError err =>
      Result.osExit 1
        (w1.eprint ("\nerror: Error when sending request to the server: " ++ err ++ "\n\n"))
    | HttpResult.response statusCode status body =>
      match body with
      | Except.error err => Result.osExit 1 (w1.eprint (errorBanner err))
      | Except.ok responseBody =>
        if statusCode = 200 then
          match env.unmarshalCategories responseBody with
          | Except.error err => Result.osExit 1 (w1.eprint (errorBanner err))
          | Except.ok getAllCategoriesResponse =>
            Result.ok ([] ++ getAllCategoriesResponse.Categories) w1
        else
          Result.osExit 1 (w1.eprint (statusBanner status responseBody))

/-- The directory of a category: `path.Clean(outputDir/baseName/slug)`. -/
def categoryBuilder.dirOf (env : Env) (b : categoryBuilder) (category : Category) : String :=
  env.pathClean (b.outputDir ++ "/" ++ b.baseName ++ "/" ++ category.Slug)

/-- The `for _, category := range categories` loop of `categoryBuilder.Build`. -/
def categoryBuilder.buildLoop (env : Env) (b : categoryBuilder) :
    List Category → World → Result Unit
  | [], w => Result.ok () w
  | category :: rest, w =>
    let dir := b.dirOf env category
    match osMkdirAll env w.fs dir with
    | Except.error err => Result.osExit 1 (w.eprint (errorBanner err))
    | Except.ok fs1 =>
      match b.write env dir "_index.md" category { w with fs := fs1 } with
      | Result.ok _ w2 => categoryBuilder.buildLoop env b rest w2
      | Result.osExit code w2 => Result.osExit code w2
      | Result.goPanic msg w2 => Result.goPanic msg w2
      | Result.outOfFuel w2 => Result.outOfFuel w2

def categoryBuilder.Build (env : Env) (b : categoryBuilder) (w : World) : Result Unit :=
  match b.getCategories env w with
  | Result.ok categories w1 => b.buildLoop env categories w1
  | Result.osExit code w1 => Result.osExit code w1
  | Result.goPanic msg w1 => Result.goPanic msg w1
  | Result.outOfFuel w2 => Result.outOfFuel w2

/-! ## The date of a run: `time.Parse("2006-01-02", time.Now().Format("2006-01-02"))` -/

/-- The decimal digit `d` as a character. -/
def digitChar (d : Nat) : Char := Char.ofNat (48 + d)

/-- Go `appendInt(b, x, width)` of package `time` for `x ≥ 0`: decimal, padded
with zeros to at least `width` characters, two- and four-digit fields first
as in the library. -/
def appendInt (x width : Nat) : List Char :=
  if width = 2 ∧ x < 100 then
    [digitChar (x / 10), digitChar (x % 10)]
  else if width = 4 ∧ x < 10000 then
    [digitChar (x / 100 / 10), digitChar (x / 100 % 10),
     digitChar (x % 100 / 10), digitChar (x % 100 % 10)]
  else
    let ds := Nat.toDigits 10 x
    List.replicate (width - ds.length) '0' ++ ds

/-- Go `t.Format("2006-01-02")`: year, month and day of `t` in its own location. -/
def Time.Format (t : Time) : List Char :=
  appendInt t.year 4 ++ ['-'] ++ appendInt t.month 2 ++ ['-'] ++ appendInt t.day 2

def isDigit (c : Char) : Bool := decide (48 ≤ c.toNat) && decide (c.toNat ≤ 57)

def digitValue (c : Char) : Nat := c.toNat - 48

/-- The `stdLongYear` step of `time.Parse`: exactly four characters, all digits. -/
def parseLongYear : List Char → Except String (Nat × List Char)
  | c0 :: c1 :: c2 :: c3 :: rest =>
    if isDigit c0 && isDigit c1 && isDigit c2 && isDigit c3 then
      Except.ok (digitValue c0 * 1000 + digitValue c1 * 100 + digitValue c2 * 10
        + digitValue c3, rest)
    else Except.error "bad value"
  | _ => Except.error "bad value"

/-- Go `getnum(s, true)`: exactly two digits. -/
def getnumFixed : List Char → Except String (Nat × List Char)
  | c0 :: c1 :: rest =>
    if isDigit c0 && isDigit c1 then Except.ok (digitValue c0 * 10 + digitValue c1, rest)
    else Except.error "bad value"
  | _ => Except.error "bad value"

/-- Go `skip(value, "-")`: the literal text between two layout elements. -/
def skipDash : List Char → Except String (List Char)
  | c :: rest => if c = '-' then Except.ok rest else Except.error "bad value"
  | [] => Except.error "bad value"

def isLeap (year : Nat) : Bool :=
  year % 4 == 0 && (year % 100 != 0 || year % 400 == 0)

/-- Go `daysIn(m, year)`. -/
def daysIn (m year : Nat) : Nat :=
  if m = 2 then (if isLeap year then 29 else 28)
  else 30 + (m + m / 8) % 2

/-- Go `time.Parse("2006-01-02", value)`: midnight UTC of the day written in
`value`, or an error. -/
def timeParse (value : List Char) : Except String Time :=
  match parseLongYear value with
  | Except.error err => Except.error err
  | Except.ok (year, v1) =>
    match skipDash v1 with
    | Except.error err => Except.error err
    | Except.ok v2 =>
      match getnumFixed v2 with
      | Except.error err => Except.error err
      | Except.ok (month, v3) =>
        if month = 0 ∨ 12 < month then Except.error "month out of range"
        else
          match skipDash v3 with
          | Except.error err => Except.error err
          | Except.ok v4 =>
            match getnumFixed v4 with
            | Except.error err => Except.error err
            | Except.ok (day, v5) =>
              if v5 ≠ [] then Except.error "extra text"
              else if day < 1 ∨ daysIn month year < day then Except.error "day out of range"
              else
                Except.ok
                  { year := year, month := month, day := day, hour := 0, minute := 0,
                    second := 0, nanosecond := 0, loc := Location.UTC }

/-- The two lines `t, _ := time.Parse(..., time.Now().Format(...))`: the error is
dropped, and with it `t` stays the zero time. -/
def runDate (now : Time) : Time :=
  match timeParse now.Format with
  | Except.ok t => t
  | Except.error _ => Time.zero

/-! ## Products (`product.go`) -/

structure productBuilder where
  apiURL : String
  storeKey : String
  outputDir : String
  baseName : String
deriving DecidableEq, Repr

def NewProductBuilder (apiURL storeKey outputDir baseName : String) : productBuilder :=
  { apiURL := apiURL, storeKey := storeKey, outputDir := outputDir, baseName := baseName }

def productBuilder.write (env : Env) (_b : productBuilder) (dir filename : String)
    (product : Product) (w : World) : Result Unit :=
  writeDocument env dir filename (env.yamlProduct product) w

/-- The request of `getProduct` for one slug. -/
def productBuilder.detailRequest (b : productBuilder) (slug : String) : Request :=
  { method := "GET", url := b.apiURL ++ "/v1/product/slug/" ++ slug, storeKey := b.storeKey }

/-- `productBuilder.getProduct` (`product.go` 86-127).  The result `none` is the
nil pointer.  `json.Unmarshal` into the nil `*Product` gives an error, leaves
the pointer nil (`Except.ok none`, the body `null`) or makes it point to a
decoded record; the assignment `product.Title = product.Name` on a nil
pointer is a run-time panic. -/
def productBuilder.getProduct (env : Env) (b : productBuilder) (slug : String) (w : World) :
    Result (Option Product) :=
  let url := b.apiURL ++ "/v1/product/slug/" ++ slug
  match env.newRequestError "GET" url with
  | some err => Result.goPanic ("ERROR:" ++ err) w
  | none =>
    let req := b.detailRequest slug
    let w1 := { w with requests := w.requests ++ [req] }
    match env.roundTrip w.requests req with
    | HttpResult.transportError _ =>
      Result.ok none (w1.print "Error when sending request to the server\n")
    | HttpResult.response statusCode status body =>
      match body with
      | Except.error err => Result.osExit 1 (w1.eprint (errorBanner err))
      | Except.ok responseBody =>
        if statusCode = 200 then
          match env.unmarshalProduct responseBody with
          | Except.error err => Result.osExit 1 (w1.eprint (errorBanner err))
          | Except.ok none =>
            Result.goPanic "runtime error: invalid memory address or nil pointer dereference" w1
          | Except.ok (some product) =>
            let product1 := { product with Title := product.Name }
            let product2 := { product1 with Name := "" }
            let t := runDate (env.now w1)
            Result.ok (some { product2 with Date := t }) w1
        else
          Result.osExit 1 (w1.eprint (statusBanner status responseBody))

def productsPerPage : Int := 1000

/-- The request of `getProducts` for page `i`, with the URL
`fmt.Sprintf(baseUrl, i, productsPerPage)` for
`baseUrl := b.apiURL + "/v1/products/%d/%d"`. -/
def productBuilder.listRequest (env : Env) (b : productBuilder) (i : Int) : Request :=
  { method := "GET",
    url := env.sprintf (b.apiURL ++ "/v1/products/%d/%d") i productsPerPage,
    storeKey := b.storeKey }

/-- The `for i := int64(0); i < totalPages; i++` loop of `getProducts`
(`product.go` 136-175), one unit of fuel per iteration.  The counter cannot
overflow: it is incremented only while below an `int64`. -/
def productBuilder.getProductsLoop (env : Env) (b : productBuilder) :
    Nat → Int → Int → List Product → World → Result (List Product)
  | 0, i, totalPages, products, w =>
    if i < totalPages then Result.outOfFuel w else Result.ok products w
  | fuel + 1, i, totalPages, products, w =>
    if i < totalPages then
      let req := b.listRequest env i
      match env.newRequestError "GET" req.url with
      | some err => Result.osExit 1 (w.eprint (errorBanner err))
      | none =>
        let w1 := { w with requests := w.requests ++ [req] }
        match env.roundTrip w.requests req with
        | HttpResult.transportError _ =>
          Result.ok [] (w1.print "Error when sending request to the server\n")
        | HttpResult.response statusCode status body =>
          match body with
          | Except.error err => Result.osExit 1 (w1.eprint (errorBanner err))
          | Except.ok responseBody =>
            if statusCode = 200 then
              match env.unmarshalProducts responseBody with
              | Except.error err => Result.osExit 1 (w1.eprint (errorBanner err))
              | Except.ok getAllProductsResponse =>
                productBuilder.getProductsLoop env b fuel (i + 1)
                  getAllProductsResponse.TotalPages
                  (products ++ getAllProductsResponse.Products) w1
            else
              Result.osExit 1 (w1.eprint (statusBanner status responseBody))
    else Result.ok products w

def productBuilder.getProducts (env : Env) (b : productBuilder) (fuel : Nat) (w : World) :
    Result (List Product) :=
  b.getProductsLoop env fuel 0 1 [] w

/-- The directory of all products: `path.Clean(outputDir/baseName)`. -/
def productBuilder.dir (env : Env) (b : productBuilder) : String :=
  env.pathClean (b.outputDir ++ "/" ++ b.baseName)

/-- The `for _, product := range products` loop of `productBuilder.Build`. -/
def productBuilder.buildLoop (env : Env) (b : productBuilder) :
    List Product → World → Result Unit
  | [], w => Result.ok () w
  | product :: rest, w =>
    let dir := b.dir env
    match osMkdirAll env w.fs dir with
    | Except.error err => Result.osExit 1 (w.eprint (errorBanner err))
    | Except.ok fs1 =>
      match b.getProduct env product.Slug { w with fs := fs1 } with
      | Result.ok (some prod) w2 =>
        match b.write env dir (product.Slug ++ ".md") prod w2 with
        | Result.ok _ w3 => productBuilder.buildLoop env b rest w3
        | Result.osExit code w3 => Result.osExit code w3
        | Result.goPanic msg w3 => Result.goPanic msg w3
        | Result.outOfFuel w2 => Result.outOfFuel w2
      | Result.ok none w2 =>
        productBuilder.buildLoop env b rest
          (w2.logPrint ("Could not write product: " ++ product.Name))
      | Result.osExit code w2 => Result.osExit code w2
      | Result.goPanic msg w2 => Result.goPanic msg w2
      | Result.outOfFuel w2 => Result.outOfFuel w2

def productBuilder.Build (env : Env) (b : productBuilder) (fuel : Nat) (w : World) :
    Result Unit :=
  match b.getProducts env fuel w with
  | Result.ok products w1 => b.buildLoop env products w1
  | Result.osExit code w1 => Result.osExit code w1
  | Result.goPanic msg w1 => Result.goPanic msg w1
  | Result.outOfFuel w2 => Result.outOfFuel w2

/-! ## A concrete environment for the worked examples

An operating system that refuses nothing, paths cleaned the way `path.Clean`
cleans them, a clock stopped on the afternoon of 14 March 2022, decoders that
read the bodies listed in a table (and `null`), and a one-line stand-in for
the YAML encoder.  The HTTP server is the parameter. -/

def emptyWorld : World :=
  { fs := { files := [], dirs := [] }, requests := [], stdout := [], stderr := [], log := [] }

def sampleTime : Time :=
  { year := 2022, month := 3, day := 14, hour := 15, minute := 9, second := 26,
    nanosecond := 535, loc := Location.Local }

def sampleAsset : Asset :=
  { VariantId := 0, Name := "", DisplayName := "", Url := "", Kind := 0, ContentType := "",
    SortOrder := 0, Sizes := [] }

def sampleProduct (slug name : String) : Product :=
  { Slug := slug, Title := "", Name := name, ShortDescription := "", Description := "",
    MetaTitle := "", MetaDescription := "", MetaKeywords := "", Variants := [],
    DefaultImage := sampleAsset, Images := [], Categories := [], Date := Time.zero,
    Tags := [] }

def sampleCategory (id : Int) (slug name : String) : Category :=
  { Id := id, ParentId := 0, Slug := slug, Name := name, Description := "", MetaTitle := "",
    MetaDescription := "", MetaKeywords := "", Depth := 0, SortOrder := 0 }

/-- A decoder that knows the bodies of a table and rejects every other one. -/
def tableDecode {α : Type} : List (String × α) → String → Except String α
  | [], _ => Except.error "invalid character looking for beginning of value"
  | (known, a) :: rest, body => if known = body then Except.ok a else tableDecode rest body

/-- A decoder into `*Product`: the body `null` leaves the pointer nil. -/
def tableDecodeProduct (table : List (String × Product)) (body : String) :
    Except String (Option Product) :=
  if body = "null" then Except.ok none
  else
    match tableDecode table body with
    | Except.ok p => Except.ok (some p)
    | Except.error err => Except.error err

/-- The elements of a path between its separators. -/
def splitSlashAux : List Char → List Char → List (List Char)
  | [], current => [current.reverse]
  | c :: rest, current =>
    if c = '/' then current.reverse :: splitSlashAux rest [] else splitSlashAux rest (c :: current)

/-- One element of a path met by `path.Clean`, the elements kept so far being
`kept`, last first: empty elements and `.` are dropped, `..` removes the
element before it, or is kept at the start of a path that is not rooted. -/
def cleanStep (rooted : Bool) (kept : List (List Char)) (element : List Char) :
    List (List Char) :=
  if element = [] ∨ element = ['.'] then kept
  else if element = ['.', '.'] then
    match kept with
    | top :: below => if top = ['.', '.'] then element :: kept else below
    | [] => if rooted then [] else [element]
  else element :: kept

def joinSlash : List (List Char) → List Char
  | [] => []
  | [element] => element
  | element :: rest => element ++ '/' :: joinSlash rest

/-- Go `path.Clean`, element by element. -/
def goPathClean (p : String) : String :=
  let rooted := p.data.head? == some '/'
  let kept := (splitSlashAux p.data []).foldl (cleanStep rooted) []
  let body := joinSlash kept.reverse
  if rooted then String.mk ('/' :: body)
  else if body.isEmpty then "."
  else String.mk body

/-- Puts the operands, in decimal, in the place of the verbs `%d` of a format. -/
def substituteD : List Char → List Int → List Char
  | [], _ => []
  | [c], _ => [c]
  | c :: d :: rest, operands =>
    if c = '%' ∧ d = 'd' then
      match operands with
      | [] => c :: d :: substituteD rest []
      | a :: others => (toString a).data ++ substituteD rest others
    else c :: substituteD (d :: rest) operands

def sampleSprintf (format : String) (a b : Int) : String :=
  String.mk (substituteD format.data [a, b])

def sampleEnv (server : List Request → Request → HttpResult)
    (categories : List (String × GetAllCategoriesResponse))
    (lists : List (String × GetAllProductsResponse))
    (details : List (String × Product)) : Env :=
  { sprintf := sampleSprintf
    newRequestError := fun _ _ => none
    roundTrip := server
    now := fun _ => sampleTime
    pathClean := goPathClean
    mkdirAllError := fun _ _ => none
    truncateError := fun _ _ => none
    createError := fun _ _ => none
    writeError := fun _ _ _ => none
    closeError := fun _ _ => none
    unmarshalCategories := tableDecode categories
    unmarshalProducts := tableDecode lists
    unmarshalProduct := tableDecodeProduct details
    yamlCategory := fun c => Except.ok ("slug: " ++ c.Slug ++ "\nname: " ++ c.Name ++ "\n")
    yamlProduct := fun p => Except.ok ("slug: " ++ p.Slug ++ "\ntitle: " ++ p.Title ++ "\n") }

def sampleProducts : productBuilder := NewProductBuilder "http://api" "key" "out" "product"

def sampleCategories : categoryBuilder := NewCategoryBuilder "http://api" "key" "out" "category"

/-- The list request of the worked examples for page `i`. -/
def samplePageRequest (i : Int) : Request :=
  { method := "GET", url := "http://api/v1/products/" ++ toString i ++ "/1000",
    storeKey := "key" }

def ok200 (body : String) : HttpResult := HttpResult.response 200 "200 OK" (Except.ok body)

/-! ## Names used in the statements -/

/-- The text of a written file: opening delimiter line, document, closing delimiter. -/
def frontMatter (yaml : String) : String := "---\n" ++ yaml ++ "---"

/-- The file of a category: `path.Clean(dir/_index.md)`. -/
def categoryBuilder.fileOf (env : Env) (b : categoryBuilder) (category : Category) : String :=
  env.pathClean (b.dirOf env category ++ "/" ++ "_index.md")

/-! ## Worked examples: categories and the writer -/

/-- A category server whose list holds the slug `shoes` twice. -/
def twinServer : List Request → Request → HttpResult := fun _ req =>
  if req.url = "http://api/v1/categories" then ok200 "twins"
  else HttpResult.transportError "connection refused"

def twinCategories : List Category :=
  [sampleCategory 1 "shoes" "Shoes", sampleCategory 2 "shoes" "Sneakers"]

def twinEnv : Env := sampleEnv twinServer [("twins", { Categories := twinCategories })] [] []

/-- A category server whose list holds two different slugs. -/
def shopServer : List Request → Request → HttpResult := fun _ req =>
  if req.url = "http://api/v1/categories" then ok200 "shop"
  else HttpResult.transportError "connection refused"

def shopCategories : List Category :=
  [sampleCategory 1 "shoes" "Shoes", sampleCategory 2 "hats" "Hats"]

def shopEnv : Env := sampleEnv shopServer [("shop", { Categories := shopCategories })] [] []

/-- The stand-in encoder of `sampleEnv`, as a function. -/
def sampleYamlCategory (c : Category) : String :=
  "slug: " ++ c.Slug ++ "\nname: " ++ c.Name ++ "\n"

/-- The environment of `shopEnv` on a full disk: the three bytes of the closing
delimiter are refused, every other write is accepted. -/
def fullDiskEnv : Env :=
  { shopEnv with
    writeError := fun _ _ data => if data = "---" then some "no space left on device" else none }

/-- A world in which the file of the category `shoes` exists, with a long
content left by an earlier run. -/
def staleWorld : World :=
  { emptyWorld with
    fs := { files := [("out/category/shoes/_index.md",
                       "---\nslug: shoes\nname: Shoes\ndescription: last season\n---")],
            dirs := ["out", "out/category", "out/category/shoes"] } }

/-! ## Worked examples: products -/

/-- A product server: one list page with the slugs `a` and `b`; the detail of
`a` is answered `404`, the detail of `b` is answered `200`. -/
def missingServer : List Request → Request → HttpResult := fun _ req =>
  if req.url = "http://api/v1/products/0/1000" then ok200 "list"
  else if req.url = "http://api/v1/product/slug/a" then
    HttpResult.response 404 "404 Not Found" (Except.ok "missing")
  else if req.url = "http://api/v1/product/slug/b" then ok200 "b"
  else HttpResult.transportError "connection refused"

def twoProducts : GetAllProductsResponse :=
  { Products := [sampleProduct "a" "A", sampleProduct "b" "B"], TotalRecords := 2,
    TotalPages := 1 }

def missingEnv : Env :=
  sampleEnv missingServer [] [("list", twoProducts)] [("b", sampleProduct "b" "B")]

/-- A product server that serves the details of `b` and `c`; the connection
for the detail of `a` cannot be made. -/
def unreachableServer : List Request → Request → HttpResult := fun _ req =>
  if req.url = "http://api/v1/products/0/1000" then ok200 "list"
  else if req.url = "http://api/v1/product/slug/b" then ok200 "b"
  else if req.url = "http://api/v1/product/slug/c" then ok200 "c"
  else HttpResult.transportError "connection refused"

def unreachableEnv : Env :=
  sampleEnv unreachableServer [] [("list", twoProducts)]
    [("b", sampleProduct "b" "B"), ("c", sampleProduct "c" "C")]

/-- A product server that answers the detail of `ghost` with `200` and the
body `null`. -/
def nullServer : List Request → Request → HttpResult := fun _ req =>
  if req.url = "http://api/v1/product/slug/ghost" then ok200 "null"
  else HttpResult.transportError "connection refused"

def nullEnv : Env := sampleEnv nullServer [] [] []

/-- A product server with two list pages: page 0 is served, the connection
for page 1 fails. -/
def brokenListServer : List Request → Request → HttpResult := fun _ req =>
  if req.url = "http://api/v1/products/0/1000" then ok200 "first"
  else if req.url = "http://api/v1/product/slug/a" then ok200 "a"
  else HttpResult.transportError "connection reset"

def brokenListEnv : Env :=
  sampleEnv brokenListServer []
    [("first", { Products := [sampleProduct "a" "A"], TotalRecords := 2, TotalPages := 2 })]
    [("a", sampleProduct "a" "A")]

/-- Midnight UTC of the day of `sampleTime`. -/
def sampleDate : Time :=
  { year := 2022, month := 3, day := 14, hour := 0, minute := 0, second := 0, nanosecond := 0,
    loc := Location.UTC }

/-! ## Worked examples: the list of products -/

/-- The two list pages of `repeatServer`; the slug `a` is on both. -/
def repeatPage (j : Nat) : GetAllProductsResponse :=
  if j = 0 then
    { Products := [sampleProduct "a" "A", sampleProduct "b" "B"], TotalRecords := 3,
      TotalPages := 2 }
  else { Products := [sampleProduct "a" "A again"], TotalRecords := 3, TotalPages := 2 }

def repeatServer : List Request → Request → HttpResult := fun _ req =>
  if req.url = "http://api/v1/products/0/1000" then ok200 "first"
  else if req.url = "http://api/v1/products/1/1000" then ok200 "second"
  else HttpResult.transportError "connection refused"

def repeatEnv : Env :=
  sampleEnv repeatServer [] [("first", repeatPage 0), ("second", repeatPage 1)] []

/-- A product server whose every list response announces `total` pages and
holds no product. -/
def constantServer : List Request → Request → HttpResult := fun _ _ => ok200 "page"

def constantEnv (total : Int) : Env :=
  sampleEnv constantServer [] [("page", { Products := [], TotalRecords := 0, TotalPages := total })]
    []

/-! ## Names used in the statements about the product loop -/

/-- The record `getProduct` makes of the decoded record `d` on the day `date`:
the name moved to the title, the name cleared, the date set. -/
def transformed (d : Product) (date : Time) : Product :=
  { d with Title := d.Name, Name := "", Date := date }

/-- The file of a product: `path.Clean(dir/<slug>.md)`. -/
def productBuilder.fileOf (env : Env) (b : productBuilder) (slug : String) : String :=
  env.pathClean (b.dir env ++ "/" ++ (slug ++ ".md"))

/-- The file of a product can be created once the product directory is made:
it is no directory, no directory on the way to the product directory, and it
lies directly in the product directory (or in the working directory or the
root, when that is the product directory). -/
abbrev productBuilder.writable (env : Env) (b : productBuilder) (fs : FileSystem)
    (slug : String) : Prop :=
  b.fileOf env slug ∉ fs.dirs
  ∧ b.fileOf env slug ∉ mkdirChain (b.dir env)
  ∧ (parentPath (b.fileOf env slug) = none
    ∨ parentPath (b.fileOf env slug) = some (b.dir env))

/-- The detail requests for the products `ps`, sent in that order by a client
that has sent `hist` before, can be built and are answered as `outs` tells,
entry by entry: `none` stands for an error of the HTTP client, `some d` for a
200 response whose body decodes to the record `d`. -/
def productBuilder.detailsAnswered (env : Env) (b : productBuilder) :
    List Request → List Product → List (Option Product) → Prop
  | _, [], [] => True
  | hist, q :: ps, o :: outs =>
    env.newRequestError "GET" (b.apiURL ++ "/v1/product/slug/" ++ q.Slug) = none
    ∧ (match o with
       | none => ∃ err, env.roundTrip hist (b.detailRequest q.Slug)
           = HttpResult.transportError err
       | some d => ∃ status body, env.roundTrip hist (b.detailRequest q.Slug)
           = HttpResult.response 200 status (Except.ok body)
           ∧ env.unmarshalProduct body = Except.ok (some d))
    ∧ productBuilder.detailsAnswered env b (hist ++ [b.detailRequest q.Slug]) ps outs
  | _, _ :: _, [] => False
  | _, [], _ :: _ => False

/-- The files after the loop has gone through the products `ps` answered as
`outs`: for `some d` the file of the product is written with the front matter
of `d` after the move of the name and with the date of the run; for `none`
nothing is written. -/
def productBuilder.filesAfter (env : Env) (b : productBuilder) (yaml : Product → String)
    (date : Time) : List Product → List (Option Product) → List (String × String) →
    List (String × String)
  | q :: ps, some d :: outs, files =>
    productBuilder.filesAfter env b yaml date ps outs
      (setFile files (b.fileOf env q.Slug) (frontMatter (yaml (transformed d date))))
  | _ :: ps, none :: outs, files => productBuilder.filesAfter env b yaml date ps outs files
  | _, _, files => files

/-- The stand-in encoder of `sampleEnv` for products, as a function. -/
def sampleYamlProduct (p : Product) : String :=
  "slug: " ++ p.Slug ++ "\ntitle: " ++ p.Title ++ "\n"

/-! # Theorems -/

/-! ## Files -/

theorem lookupFile_setFile_self (fs : List (String × String)) (p c : String) :
    lookupFile (setFile fs p c) p = some c := by
  induction fs with
  | nil => simp [setFile, lookupFile]
  | cons hd tl ih =>
    obtain ⟨q, d⟩ := hd
    by_cases h : q = p
    · simp [setFile, lookupFile, h]
    · simp [setFile, lookupFile, h, ih]

theorem lookupFile_setFile_ne (fs : List (String × String)) (p q c : String) (h : q ≠ p) :
    lookupFile (setFile fs p c) q = lookupFile fs q := by
  induction fs with
  | nil => simp [setFile, lookupFile, Ne.symm h]
  | cons hd tl ih =>
    obtain ⟨r, d⟩ := hd
    by_cases hr : r = p
    · subst hr
      simp [setFile, lookupFile, Ne.symm h]
    · by_cases hq : r = q
      · subst hq
        simp [setFile, lookupFile, hr]
      · simp [setFile, lookupFile, hr, hq, ih]

theorem setFile_setFile (fs : List (String × String)) (p a c : String) :
    setFile (setFile fs p a) p c = setFile fs p c := by
  induction fs with
  | nil => simp [setFile]
  | cons hd tl ih =>
    obtain ⟨q, d⟩ := hd
    by_cases h : q = p
    · simp [setFile, h]
    · simp [setFile, h, ih]

theorem appendFile_setFile (fs : List (String × String)) (p a c : String) :
    appendFile (setFile fs p a) p c = setFile fs p (a ++ c) := by
  induction fs with
  | nil => simp [setFile, appendFile]
  | cons hd tl ih =>
    obtain ⟨q, d⟩ := hd
    by_cases h : q = p
    · simp [setFile, appendFile, h]
    · simp [setFile, appendFile, h, ih]

theorem setFile_of_lookupFile_none (fs : List (String × String)) (p c : String)
    (h : lookupFile fs p = none) : setFile fs p c = fs ++ [(p, c)] := by
  induction fs with
  | nil => simp [setFile]
  | cons hd tl ih =>
    obtain ⟨q, d⟩ := hd
    by_cases hq : q = p
    · simp [lookupFile, hq] at h
    · simp [lookupFile, hq] at h
      simp [setFile, hq, ih h]

theorem lookupFile_append_single (fs : List (String × String)) (p q c : String) (h : q ≠ p) :
    lookupFile (fs ++ [(p, c)]) q = lookupFile fs q := by
  induction fs with
  | nil => simp [lookupFile, Ne.symm h]
  | cons hd tl ih =>
    obtain ⟨r, d⟩ := hd
    by_cases hr : r = q
    · simp [lookupFile, hr]
    · simp [lookupFile, hr, ih]

theorem lookupFile_setFile_isSome (fs : List (String × String)) (p q c : String)
    (h : (lookupFile fs q).isSome = true) : (lookupFile (setFile fs p c) q).isSome = true := by
  by_cases hq : q = p
  · subst hq
    rw [lookupFile_setFile_self]
    rfl
  · rw [lookupFile_setFile_ne _ _ _ _ hq]
    exact h

theorem mem_mkdirChain_self (p : String) : p ∈ mkdirChain p := by
  unfold mkdirChain
  cases p.length with
  | zero => simp [mkdirChainAux]
  | succ n =>
    rw [mkdirChainAux]
    cases parentPath p <;> simp

theorem osMkdirAll_of_mem (env : Env) (fs : FileSystem) (dir : String) (h : dir ∈ fs.dirs) :
    osMkdirAll env fs dir = Except.ok fs := by
  simp [osMkdirAll, h]

theorem osMkdirAll_ok (env : Env) (fs : FileSystem) (dir : String)
    (hmk : env.mkdirAllError fs dir = none)
    (hchain : ∀ q ∈ mkdirChain dir, lookupFile fs.files q = none) :
    ∃ fs1, osMkdirAll env fs dir = Except.ok fs1 ∧ fs1.files = fs.files ∧ dir ∈ fs1.dirs
      ∧ (∀ p, p ∈ fs1.dirs → p ∈ fs.dirs ∨ p ∈ mkdirChain dir)
      ∧ (∀ p, p ∈ fs.dirs → p ∈ fs1.dirs) := by
  by_cases hd : dir ∈ fs.dirs
  · exact ⟨fs, osMkdirAll_of_mem env fs dir hd, rfl, hd, fun p hp => Or.inl hp, fun p hp => hp⟩
  · have hfind : (mkdirChain dir).find? (fun q => isRegularFile fs q) = none := by
      rw [List.find?_eq_none]
      intro q hq
      simp [isRegularFile, hchain q hq]
    refine ⟨{ fs with dirs := fs.dirs ++ (mkdirChain dir).filter (fun q => !fs.dirs.contains q) },
      ?_, rfl, ?_, ?_, ?_⟩
    · simp [osMkdirAll, hd, hfind, hmk]
    · simp [hd, mem_mkdirChain_self]
    · intro p hp
      simp at hp
      rcases hp with hp | hp
      · exact Or.inl hp
      · exact Or.inr hp.1
    · intro p hp
      simp [hp]

theorem writeDocument_ok (env : Env) (dir filename yaml : String) (w : World)
    (hdir : env.pathClean (dir ++ "/" ++ filename) ∉ w.fs.dirs)
    (hparent : parentExists w.fs (env.pathClean (dir ++ "/" ++ filename)) = true)
    (hcreate : ∀ fs, env.createError fs (env.pathClean (dir ++ "/" ++ filename)) = none)
    (hwrite : ∀ fs s, env.writeError fs (env.pathClean (dir ++ "/" ++ filename)) s = none)
    (hclose : ∀ fs, env.closeError fs (env.pathClean (dir ++ "/" ++ filename)) = none) :
    ∃ w1, writeDocument env dir filename (Except.ok yaml) w = Result.ok () w1
      ∧ w1.fs = { files := setFile w.fs.files (env.pathClean (dir ++ "/" ++ filename))
                    (frontMatter yaml),
                  dirs := w.fs.dirs }
      ∧ w1.requests = w.requests ∧ w1.stdout = w.stdout ∧ w1.stderr = w.stderr := by
  have hpar : ∀ files, parentExists { files := files, dirs := w.fs.dirs }
      (env.pathClean (dir ++ "/" ++ filename)) = true := by
    intro files
    unfold parentExists at hparent ⊢
    exact hparent
  unfold writeDocument
  by_cases hstat : osStatNotExist w.fs (env.pathClean (dir ++ "/" ++ filename)) = true
  · simp [hstat, osCreate, hdir, hparent, hcreate, hwrite, hclose, fileWriteStringUnchecked,
      fileWrite, appendFile_setFile, frontMatter]
  · cases htr : osTruncate env w.fs (env.pathClean (dir ++ "/" ++ filename)) with
    | error err =>
      simp [hstat, htr, World.logPrint, osCreate, hdir, hparent, hcreate, hwrite, hclose,
        fileWriteStringUnchecked, fileWrite, appendFile_setFile, frontMatter]
    | ok fs1 =>
      have hfs : fs1 = { files := setFile w.fs.files (env.pathClean (dir ++ "/" ++ filename)) "",
                         dirs := w.fs.dirs } := by
        unfold osTruncate at htr
        split at htr
        · split at htr <;> cases htr
        · split at htr
          · cases htr
          · cases htr; rfl
      subst hfs
      simp [hstat, htr, osCreate, hdir, hpar, hcreate, hwrite, hclose,
        fileWriteStringUnchecked, fileWrite, appendFile_setFile, setFile_setFile, frontMatter]

theorem parentExists_of_parent (fs : FileSystem) (p dir : String) (hdir : dir ∈ fs.dirs)
    (h : parentPath p = none ∨ parentPath p = some dir) : parentExists fs p = true := by
  unfold parentExists
  rcases h with h | h
  · rw [h]
  · rw [h]
    simpa using hdir

theorem categoryBuilder.buildLoop_fresh (env : Env) (b : categoryBuilder)
    (yaml : Category → String)
    (hmk : ∀ fs p, env.mkdirAllError fs p = none)
    (hcreate : ∀ fs p, env.createError fs p = none)
    (hwrite : ∀ fs p s, env.writeError fs p s = none)
    (hclose : ∀ fs p, env.closeError fs p = none) :
    ∀ (cs : List Category) (w : World),
      (∀ c ∈ cs, env.yamlCategory c = Except.ok (yaml c)) →
      (cs.map (b.fileOf env)).Nodup →
      (∀ c ∈ cs, parentPath (b.fileOf env c) = none
        ∨ parentPath (b.fileOf env c) = some (b.dirOf env c)) →
      (∀ c ∈ cs, ∀ c1 ∈ cs, b.fileOf env c ∉ mkdirChain (b.dirOf env c1)) →
      (∀ c ∈ cs, lookupFile w.fs.files (b.fileOf env c) = none) →
      (∀ c ∈ cs, ∀ q ∈ mkdirChain (b.dirOf env c), lookupFile w.fs.files q = none) →
      (∀ c ∈ cs, b.fileOf env c ∉ w.fs.dirs) →
      ∃ w1, b.buildLoop env cs w = Result.ok () w1
        ∧ w1.fs.files = w.fs.files ++ cs.map (fun c => (b.fileOf env c, frontMatter (yaml c)))
        ∧ w1.requests = w.requests ∧ w1.stderr = w.stderr := by
  intro cs
  induction cs with
  | nil =>
    intro w _ _ _ _ _ _ _
    exact ⟨w, rfl, by simp, rfl, rfl⟩
  | cons c cs ih =>
    intro w hyaml hnodup hpar hconf hfresh hnofile hnodir
    have hc : c ∈ c :: cs := List.mem_cons_self _ _
    obtain ⟨fs1, hfs1, hfiles1, hdirmem, hdirs1, _⟩ :=
      osMkdirAll_ok env w.fs (b.dirOf env c) (hmk _ _) (hnofile c hc)
    have hnd : b.fileOf env c ∉ fs1.dirs := by
      intro hin
      rcases hdirs1 _ hin with h | h
      · exact hnodir c hc h
      · exact hconf c hc c hc h
    obtain ⟨w1, hw1, hw1fs, hw1req, _, hw1err⟩ :=
      writeDocument_ok env (b.dirOf env c) "_index.md" (yaml c) { w with fs := fs1 } hnd
        (parentExists_of_parent fs1 _ _ hdirmem (hpar c hc))
        (fun fs => hcreate fs _) (fun fs s => hwrite fs _ s) (fun fs => hclose fs _)
    have hset : w1.fs.files = w.fs.files ++ [(b.fileOf env c, frontMatter (yaml c))] := by
      rw [hw1fs]
      show setFile fs1.files (b.fileOf env c) (frontMatter (yaml c)) = _
      rw [hfiles1]
      exact setFile_of_lookupFile_none _ _ _ (hfresh c hc)
    have hw1dirs : w1.fs.dirs = fs1.dirs := by rw [hw1fs]
    rw [List.map_cons, List.nodup_cons] at hnodup
    have hne : ∀ c1 ∈ cs, b.fileOf env c1 ≠ b.fileOf env c := by
      intro c1 hc1 heq
      exact hnodup.1 (heq ▸ List.mem_map_of_mem _ hc1)
    obtain ⟨w2, hw2, hw2files, hw2req, hw2err⟩ := ih w1
      (fun c1 hc1 => hyaml c1 (List.mem_cons_of_mem _ hc1))
      hnodup.2
      (fun c1 hc1 => hpar c1 (List.mem_cons_of_mem _ hc1))
      (fun c1 hc1 c2 hc2 => hconf c1 (List.mem_cons_of_mem _ hc1) c2 (List.mem_cons_of_mem _ hc2))
      (fun c1 hc1 => by
        rw [hset, lookupFile_append_single _ _ _ _ (hne c1 hc1)]
        exact hfresh c1 (List.mem_cons_of_mem _ hc1))
      (fun c1 hc1 q hq => by
        have hqne : q ≠ b.fileOf env c := by
          intro heq
          exact hconf c hc c1 (List.mem_cons_of_mem _ hc1) (heq ▸ hq)
        rw [hset, lookupFile_append_single _ _ _ _ hqne]
        exact hnofile c1 (List.mem_cons_of_mem _ hc1) q hq)
      (fun c1 hc1 hin => by
        rw [hw1dirs] at hin
        rcases hdirs1 _ hin with h | h
        · exact hnodir c1 (List.mem_cons_of_mem _ hc1) h
        · exact hconf c1 (List.mem_cons_of_mem _ hc1) c hc h)
    refine ⟨w2, ?_, ?_, ?_, ?_⟩
    · have hwr : b.write env (b.dirOf env c) "_index.md" c { w with fs := fs1 }
          = Result.ok () w1 := by
        unfold categoryBuilder.write
        rw [hyaml c hc]
        exact hw1
      rw [categoryBuilder.buildLoop]
      simp only [hfs1, hwr]
      exact hw2
    · rw [hw2files, hset]
      simp
    · rw [hw2req, hw1req]
    · rw [hw2err, hw1err]

/-! ## The writer (C7) -/

/-- C7 (as stated, refuted): the write of the closing delimiter is refused,
its result is dropped by the code, and `categoryBuilder.write` returns
normally with a file that lacks the closing `"---"`. -/
theorem write_returns_with_delimiter_missing :
    fullDiskEnv.yamlCategory (sampleCategory 1 "shoes" "Shoes")
      = Except.ok "slug: shoes\nname: Shoes\n"
    ∧ (sampleCategories.write fullDiskEnv "out/category/shoes" "_index.md"
        (sampleCategory 1 "shoes" "Shoes") staleWorld).value = some ()
    ∧ lookupFile (sampleCategories.write fullDiskEnv "out/category/shoes" "_index.md"
        (sampleCategory 1 "shoes" "Shoes") staleWorld).world.fs.files
          "out/category/shoes/_index.md"
        = some "---\nslug: shoes\nname: Shoes\n" :=
  ⟨rfl, by decide, by decide⟩

/-- C7 (amended): when no file-system call of a write is refused, the two
`WriteString` calls for the delimiters included, and the encoder gives
`yaml`, `categoryBuilder.write` and `productBuilder.write` return normally and
the file at the cleaned target path then holds exactly `"---\n"`, the
encoder's text and `"---"`, whatever was at that path before (nothing, or a
file of any content); a second write of the same document leaves the file
system as the first one left it. -/
theorem write_replaces_whole_file (env : Env) (cb : categoryBuilder) (pb : productBuilder)
    (dir filename : String) (category : Category) (product : Product) (yc yp : String)
    (w : World)
    (hdir : env.pathClean (dir ++ "/" ++ filename) ∉ w.fs.dirs)
    (hparent : parentExists w.fs (env.pathClean (dir ++ "/" ++ filename)) = true)
    (hcreate : ∀ fs, env.createError fs (env.pathClean (dir ++ "/" ++ filename)) = none)
    (hwrite : ∀ fs s, env.writeError fs (env.pathClean (dir ++ "/" ++ filename)) s = none)
    (hclose : ∀ fs, env.closeError fs (env.pathClean (dir ++ "/" ++ filename)) = none)
    (hyc : env.yamlCategory category = Except.ok yc)
    (hyp : env.yamlProduct product = Except.ok yp) :
    (∃ w1 w2, cb.write env dir filename category w = Result.ok () w1
      ∧ lookupFile w1.fs.files (env.pathClean (dir ++ "/" ++ filename))
          = some ("---\n" ++ yc ++ "---")
      ∧ cb.write env dir filename category w1 = Result.ok () w2
      ∧ w2.fs = w1.fs)
    ∧ (∃ w1 w2, pb.write env dir filename product w = Result.ok () w1
      ∧ lookupFile w1.fs.files (env.pathClean (dir ++ "/" ++ filename))
          = some ("---\n" ++ yp ++ "---")
      ∧ pb.write env dir filename product w1 = Result.ok () w2
      ∧ w2.fs = w1.fs) := by
  have key : ∀ yaml : String, ∃ w1 w2,
      writeDocument env dir filename (Except.ok yaml) w = Result.ok () w1
      ∧ lookupFile w1.fs.files (env.pathClean (dir ++ "/" ++ filename))
          = some ("---\n" ++ yaml ++ "---")
      ∧ writeDocument env dir filename (Except.ok yaml) w1 = Result.ok () w2
      ∧ w2.fs = w1.fs := by
    intro yaml
    obtain ⟨w1, h1, hfs1, _, _, _⟩ :=
      writeDocument_ok env dir filename yaml w hdir hparent hcreate hwrite hclose
    have hdir1 : env.pathClean (dir ++ "/" ++ filename) ∉ w1.fs.dirs := by
      rw [hfs1]; exact hdir
    have hparent1 : parentExists w1.fs (env.pathClean (dir ++ "/" ++ filename)) = true := by
      rw [hfs1]
      unfold parentExists at hparent ⊢
      exact hparent
    obtain ⟨w2, h2, hfs2, _, _, _⟩ :=
      writeDocument_ok env dir filename yaml w1 hdir1 hparent1 hcreate hwrite hclose
    refine ⟨w1, w2, h1, ?_, h2, ?_⟩
    · rw [hfs1]
      exact lookupFile_setFile_self _ _ _
    · rw [hfs2, hfs1]
      simp [setFile_setFile]
  constructor
  · unfold categoryBuilder.write
    rw [hyc]
    exact key yc
  · unfold productBuilder.write
    rw [hyp]
    exact key yp

theorem write_replaces_whole_file_witness :
    (∃ w1 w2,
      sampleCategories.write shopEnv "out/category/shoes" "_index.md"
          (sampleCategory 1 "shoes" "Shoes") staleWorld = Result.ok () w1
      ∧ lookupFile w1.fs.files "out/category/shoes/_index.md"
          = some ("---\n" ++ "slug: shoes\nname: Shoes\n" ++ "---")
      ∧ sampleCategories.write shopEnv "out/category/shoes" "_index.md"
          (sampleCategory 1 "shoes" "Shoes") w1 = Result.ok () w2
      ∧ w2.fs = w1.fs)
    ∧ (∃ w1 w2,
      sampleProducts.write shopEnv "out/category/shoes" "_index.md"
          (sampleProduct "shoes" "Shoes") staleWorld = Result.ok () w1
      ∧ lookupFile w1.fs.files "out/category/shoes/_index.md"
          = some ("---\n" ++ "slug: shoes\ntitle: \n" ++ "---")
      ∧ sampleProducts.write shopEnv "out/category/shoes" "_index.md"
          (sampleProduct "shoes" "Shoes") w1 = Result.ok () w2
      ∧ w2.fs = w1.fs) :=
  write_replaces_whole_file shopEnv sampleCategories sampleProducts "out/category/shoes"
    "_index.md" (sampleCategory 1 "shoes" "Shoes") (sampleProduct "shoes" "Shoes")
    "slug: shoes\nname: Shoes\n" "slug: shoes\ntitle: \n" staleWorld
    (by decide) (by decide) (fun _ => rfl) (fun _ _ => rfl) (fun _ => rfl) rfl rfl

/-! ## Categories (C6) -/

/-- C6 (as stated, refuted): a valid list of two entries that share the slug
`shoes` leaves one file, not two, on an empty output tree. -/
theorem categoryBuilder.Build_twin_slugs_one_file :
    (categoryBuilder.Build twinEnv sampleCategories emptyWorld).value = some ()
    ∧ twinCategories.length = 2
    ∧ (categoryBuilder.Build twinEnv sampleCategories emptyWorld).world.fs.files
        = [("out/category/shoes/_index.md", "---\nslug: shoes\nname: Sneakers\n---")] := by
  decide

/-- C6 (amended): for a 200 category list that decodes to `cats`, on an empty
output tree and with no file-system call refused, when the cleaned paths
`<outputDir>/<categoryBase>/<slug>/_index.md` of the entries are pairwise
distinct, each lies directly in the directory of its entry, and none of them
is the directory of an entry or a directory on the way to it, `Build` returns
normally and the files are exactly these paths, one per entry in list order,
each holding the front matter of its entry: `cats.length` files. -/
theorem categoryBuilder.Build_one_file_per_entry (env : Env) (b : categoryBuilder) (w : World)
    (status body : String) (cats : List Category) (yaml : Category → String)
    (hempty : w.fs = { files := [], dirs := [] })
    (hnew : env.newRequestError "GET" (b.apiURL ++ "/v1/categories") = none)
    (hresp : env.roundTrip w.requests
        { method := "GET", url := b.apiURL ++ "/v1/categories", storeKey := b.storeKey }
      = HttpResult.response 200 status (Except.ok body))
    (hdec : env.unmarshalCategories body = Except.ok { Categories := cats })
    (hmk : ∀ fs p, env.mkdirAllError fs p = none)
    (hcreate : ∀ fs p, env.createError fs p = none)
    (hwrite : ∀ fs p s, env.writeError fs p s = none)
    (hclose : ∀ fs p, env.closeError fs p = none)
    (hyaml : ∀ c ∈ cats, env.yamlCategory c = Except.ok (yaml c))
    (hnodup : (cats.map (b.fileOf env)).Nodup)
    (hinside : ∀ c ∈ cats, parentPath (b.fileOf env c) = none
      ∨ parentPath (b.fileOf env c) = some (b.dirOf env c))
    (hconf : ∀ c ∈ cats, ∀ c1 ∈ cats, b.fileOf env c ∉ mkdirChain (b.dirOf env c1)) :
    ∃ w1, b.Build env w = Result.ok () w1
      ∧ w1.fs.files = cats.map (fun c =>
          (env.pathClean (env.pathClean (b.outputDir ++ "/" ++ b.baseName ++ "/" ++ c.Slug)
            ++ "/" ++ "_index.md"), "---\n" ++ yaml c ++ "---"))
      ∧ w1.fs.files.length = cats.length := by
  have hget : b.getCategories env w
      = Result.ok cats { w with requests := w.requests ++
          [{ method := "GET", url := b.apiURL ++ "/v1/categories", storeKey := b.storeKey }] } := by
    unfold categoryBuilder.getCategories
    simp [hnew, hresp, hdec]
  obtain ⟨w1, hw1, hfiles, _, _⟩ := categoryBuilder.buildLoop_fresh env b yaml hmk hcreate hwrite
    hclose cats { w with requests := w.requests ++
          [{ method := "GET", url := b.apiURL ++ "/v1/categories", storeKey := b.storeKey }] }
    hyaml hnodup hinside hconf
    (fun c _ => by simp [hempty, lookupFile])
    (fun c _ q _ => by simp [hempty, lookupFile])
    (fun c _ => by simp [hempty])
  have hfiles1 : w1.fs.files = cats.map (fun c =>
          (env.pathClean (env.pathClean (b.outputDir ++ "/" ++ b.baseName ++ "/" ++ c.Slug)
            ++ "/" ++ "_index.md"), "---\n" ++ yaml c ++ "---")) := by
    rw [hfiles]
    simp [hempty, categoryBuilder.fileOf, categoryBuilder.dirOf, frontMatter]
  refine ⟨w1, ?_, hfiles1, ?_⟩
  · unfold categoryBuilder.Build
    rw [hget]
    exact hw1
  · rw [hfiles1, List.length_map]

theorem categoryBuilder.Build_one_file_per_entry_witness :
    ∃ w1, categoryBuilder.Build shopEnv sampleCategories emptyWorld = Result.ok () w1
      ∧ w1.fs.files
        = [("out/category/shoes/_index.md", "---\nslug: shoes\nname: Shoes\n---"),
           ("out/category/hats/_index.md", "---\nslug: hats\nname: Hats\n---")]
      ∧ w1.fs.files.length = 2 := by
  obtain ⟨w1, h1, h2, h3⟩ :=
    categoryBuilder.Build_one_file_per_entry shopEnv sampleCategories emptyWorld "200 OK" "shop"
      shopCategories sampleYamlCategory rfl rfl rfl rfl (fun _ _ => rfl) (fun _ _ => rfl)
      (fun _ _ _ => rfl) (fun _ _ => rfl) (fun _ _ => rfl) (by decide) (by decide) (by decide)
  refine ⟨w1, h1, ?_, ?_⟩
  · rw [h2]
    decide
  · rw [h3]
    rfl

/-! ## The date of a run -/

theorem isDigit_digitChar (d : Nat) (h : d < 10) : isDigit (digitChar d) = true := by
  interval_cases d <;> decide

theorem digitValue_digitChar (d : Nat) (h : d < 10) : digitValue (digitChar d) = d := by
  interval_cases d <;> decide

theorem daysIn_le (m year : Nat) : daysIn m year ≤ 31 := by
  unfold daysIn
  split
  · split <;> omega
  · omega

theorem timeParse_Format (t : Time) (hy : t.year < 10000) (hm1 : 1 ≤ t.month)
    (hm2 : t.month ≤ 12) (hd1 : 1 ≤ t.day) (hd2 : t.day ≤ daysIn t.month t.year) :
    timeParse t.Format = Except.ok
      { year := t.year, month := t.month, day := t.day, hour := 0, minute := 0, second := 0,
        nanosecond := 0, loc := Location.UTC } := by
  have hd3 : t.day ≤ 31 := le_trans hd2 (daysIn_le _ _)
  have hfmt : t.Format =
      [digitChar (t.year / 100 / 10), digitChar (t.year / 100 % 10),
       digitChar (t.year % 100 / 10), digitChar (t.year % 100 % 10), '-',
       digitChar (t.month / 10), digitChar (t.month % 10), '-',
       digitChar (t.day / 10), digitChar (t.day % 10)] := by
    have h1 : t.month < 100 := by omega
    have h2 : t.day < 100 := by omega
    simp [Time.Format, appendInt, hy, h1, h2]
  have e1 := isDigit_digitChar (t.year / 100 / 10) (by omega)
  have e2 := isDigit_digitChar (t.year / 100 % 10) (by omega)
  have e3 := isDigit_digitChar (t.year % 100 / 10) (by omega)
  have e4 := isDigit_digitChar (t.year % 100 % 10) (by omega)
  have e5 := isDigit_digitChar (t.month / 10) (by omega)
  have e6 := isDigit_digitChar (t.month % 10) (by omega)
  have e7 := isDigit_digitChar (t.day / 10) (by omega)
  have e8 := isDigit_digitChar (t.day % 10) (by omega)
  have v1 := digitValue_digitChar (t.year / 100 / 10) (by omega)
  have v2 := digitValue_digitChar (t.year / 100 % 10) (by omega)
  have v3 := digitValue_digitChar (t.year % 100 / 10) (by omega)
  have v4 := digitValue_digitChar (t.year % 100 % 10) (by omega)
  have v5 := digitValue_digitChar (t.month / 10) (by omega)
  have v6 := digitValue_digitChar (t.month % 10) (by omega)
  have v7 := digitValue_digitChar (t.day / 10) (by omega)
  have v8 := digitValue_digitChar (t.day % 10) (by omega)
  have hyear : t.year / 100 / 10 * 1000 + t.year / 100 % 10 * 100 + t.year % 100 / 10 * 10
      + t.year % 100 % 10 = t.year := by omega
  have hmonth : t.month / 10 * 10 + t.month % 10 = t.month := by omega
  have hday : t.day / 10 * 10 + t.day % 10 = t.day := by omega
  rw [hfmt]
  simp only [timeParse, parseLongYear, skipDash, getnumFixed, e1, e2, e3, e4, e5, e6, e7, e8,
    v1, v2, v3, v4, v5, v6, v7, v8, hyear, hmonth, hday]
  have hm3 : ¬ (t.month = 0 ∨ 12 < t.month) := by omega
  have hd4 : ¬ (t.day < 1 ∨ daysIn t.month t.year < t.day) := by omega
  have hd5 : ¬ (t.day = 0 ∨ daysIn t.month t.year < t.day) := by omega
  simp [e1, e2, e3, e4, e5, e6, e7, e8, v1, v2, v3, v4, v5, v6, v7, v8, hyear, hmonth, hday,
    hm3, hd4, hd5]

theorem runDate_eq (t : Time) (hy : t.year < 10000) (hm1 : 1 ≤ t.month)
    (hm2 : t.month ≤ 12) (hd1 : 1 ≤ t.day) (hd2 : t.day ≤ daysIn t.month t.year) :
    runDate t =
      { year := t.year, month := t.month, day := t.day, hour := 0, minute := 0, second := 0,
        nanosecond := 0, loc := Location.UTC } := by
  unfold runDate
  rw [timeParse_Format t hy hm1 hm2 hd1 hd2]

/-! ## Product detail (C4, C9) -/

/-- C4: for a 200 detail response whose body decodes to the record `p`, and a
clock that reads `now` (a calendar date with a four-digit year), `getProduct`
returns a product with `Title = p.Name`, `Name = ""`, `Date` the day of `now`
at 00:00:00 UTC, and every other field as in `p`. -/
theorem productBuilder.getProduct_moves_name_sets_date (env : Env) (b : productBuilder)
    (slug status body : String) (w : World) (p : Product) (now : Time)
    (hnew : env.newRequestError "GET" (b.apiURL ++ "/v1/product/slug/" ++ slug) = none)
    (hresp : env.roundTrip w.requests (b.detailRequest slug)
      = HttpResult.response 200 status (Except.ok body))
    (hdec : env.unmarshalProduct body = Except.ok (some p))
    (hnow : env.now { w with requests := w.requests ++ [b.detailRequest slug] } = now)
    (hy : now.year < 10000) (hm1 : 1 ≤ now.month) (hm2 : now.month ≤ 12)
    (hd1 : 1 ≤ now.day) (hd2 : now.day ≤ daysIn now.month now.year) :
    ∃ q w1, b.getProduct env slug w = Result.ok (some q) w1
      ∧ q.Title = p.Name
      ∧ q.Name = ""
      ∧ q.Date = { year := now.year, month := now.month, day := now.day, hour := 0,
                   minute := 0, second := 0, nanosecond := 0, loc := Location.UTC }
      ∧ q.Slug = p.Slug
      ∧ q.ShortDescription = p.ShortDescription
      ∧ q.Description = p.Description
      ∧ q.MetaTitle = p.MetaTitle
      ∧ q.MetaDescription = p.MetaDescription
      ∧ q.MetaKeywords = p.MetaKeywords
      ∧ q.Variants = p.Variants
      ∧ q.DefaultImage = p.DefaultImage
      ∧ q.Images = p.Images
      ∧ q.Categories = p.Categories
      ∧ q.Tags = p.Tags := by
  refine ⟨{ p with Title := p.Name, Name := "", Date := runDate now },
    { w with requests := w.requests ++ [b.detailRequest slug] }, ?_, rfl, rfl, ?_,
    rfl, rfl, rfl, rfl, rfl, rfl, rfl, rfl, rfl, rfl, rfl⟩
  · unfold productBuilder.getProduct
    simp [hnew, hresp, hdec, hnow]
  · exact runDate_eq now hy hm1 hm2 hd1 hd2

theorem productBuilder.getProduct_moves_name_sets_date_witness :
    ∃ q w1, productBuilder.getProduct missingEnv sampleProducts "b" emptyWorld
        = Result.ok (some q) w1
      ∧ q.Title = "B"
      ∧ q.Name = ""
      ∧ q.Date = { year := 2022, month := 3, day := 14, hour := 0,
                   minute := 0, second := 0, nanosecond := 0, loc := Location.UTC }
      ∧ q.Slug = "b"
      ∧ q.ShortDescription = ""
      ∧ q.Description = ""
      ∧ q.MetaTitle = ""
      ∧ q.MetaDescription = ""
      ∧ q.MetaKeywords = ""
      ∧ q.Variants = []
      ∧ q.DefaultImage = sampleAsset
      ∧ q.Images = []
      ∧ q.Categories = []
      ∧ q.Tags = [] :=
  productBuilder.getProduct_moves_name_sets_date missingEnv sampleProducts "b" "200 OK" "b"
    emptyWorld (sampleProduct "b" "B") sampleTime rfl rfl rfl rfl (by decide) (by decide)
    (by decide) (by decide) (by decide)

/-- C9 (the code at the failing input): a 200 detail response with the body
`null` is decoded without error, leaves the product pointer nil, and
`getProduct` panics on the nil pointer instead of returning a product. -/
theorem productBuilder.getProduct_null_body_panics :
    nullEnv.unmarshalProduct "null" = Except.ok none
    ∧ productBuilder.getProduct nullEnv sampleProducts "ghost" emptyWorld
      = Result.goPanic "runtime error: invalid memory address or nil pointer dereference"
          { emptyWorld with requests := [sampleProducts.detailRequest "ghost"] } := by
  constructor <;> rfl

/-! ## The product loop (C1, C8, C3) -/

theorem productBuilder.filesAfter_keeps (env : Env) (b : productBuilder)
    (yaml : Product → String) (date : Time) (x : String) :
    ∀ (ps : List Product) (outs : List (Option Product)) (files : List (String × String)),
      (lookupFile files x).isSome = true →
      (lookupFile (b.filesAfter env yaml date ps outs files) x).isSome = true := by
  intro ps
  induction ps with
  | nil => intro outs files h; cases outs <;> exact h
  | cons q ps ih =>
    intro outs files h
    cases outs with
    | nil => exact h
    | cons o outs =>
      cases o with
      | none => exact ih outs files h
      | some d => exact ih outs _ (lookupFile_setFile_isSome _ _ _ _ h)

theorem productBuilder.filesAfter_written (env : Env) (b : productBuilder)
    (yaml : Product → String) (date : Time) :
    ∀ (ps : List Product) (outs : List (Option Product)) (files : List (String × String)),
      ∀ qo ∈ ps.zip outs, qo.2 ≠ none →
        (lookupFile (b.filesAfter env yaml date ps outs files)
          (b.fileOf env qo.1.Slug)).isSome = true := by
  intro ps
  induction ps with
  | nil => intro outs files qo hqo; simp at hqo
  | cons q ps ih =>
    intro outs files qo hqo hne
    cases outs with
    | nil => simp at hqo
    | cons o outs =>
      rw [List.zip_cons_cons, List.mem_cons] at hqo
      rcases hqo with hqo | hqo
      · subst hqo
        cases o with
        | none => exact absurd rfl hne
        | some d =>
          exact productBuilder.filesAfter_keeps env b yaml date _ ps outs _
            (by rw [lookupFile_setFile_self]; rfl)
      · cases o with
        | none => exact ih outs files qo hqo hne
        | some d => exact ih outs _ qo hqo hne

theorem productBuilder.getProduct_transport_error (env : Env) (b : productBuilder)
    (slug err : String) (w : World)
    (hnew : env.newRequestError "GET" (b.apiURL ++ "/v1/product/slug/" ++ slug) = none)
    (hresp : env.roundTrip w.requests (b.detailRequest slug) = HttpResult.transportError err) :
    b.getProduct env slug w = Result.ok none
      { fs := w.fs, requests := w.requests ++ [b.detailRequest slug],
        stdout := w.stdout ++ ["Error when sending request to the server\n"],
        stderr := w.stderr, log := w.log } := by
  unfold productBuilder.getProduct
  simp [hnew, hresp, World.print]

theorem productBuilder.getProduct_ok (env : Env) (b : productBuilder)
    (slug status body : String) (d : Product) (w : World)
    (hnew : env.newRequestError "GET" (b.apiURL ++ "/v1/product/slug/" ++ slug) = none)
    (hresp : env.roundTrip w.requests (b.detailRequest slug)
      = HttpResult.response 200 status (Except.ok body))
    (hdec : env.unmarshalProduct body = Except.ok (some d)) :
    b.getProduct env slug w = Result.ok
      (some (transformed d (runDate (env.now
        { fs := w.fs, requests := w.requests ++ [b.detailRequest slug],
          stdout := w.stdout, stderr := w.stderr, log := w.log }))))
      { fs := w.fs, requests := w.requests ++ [b.detailRequest slug],
        stdout := w.stdout, stderr := w.stderr, log := w.log } := by
  unfold productBuilder.getProduct
  simp [hnew, hresp, hdec, transformed]

theorem productBuilder.buildLoop_benign (env : Env) (b : productBuilder)
    (yaml : Product → String) (date : Time)
    (hmk : ∀ fs p, env.mkdirAllError fs p = none)
    (hcreate : ∀ fs p, env.createError fs p = none)
    (hwrite : ∀ fs p s, env.writeError fs p s = none)
    (hclose : ∀ fs p, env.closeError fs p = none)
    (hyaml : ∀ p, env.yamlProduct p = Except.ok (yaml p))
    (hdate : ∀ w0, runDate (env.now w0) = date) (tail : List Product) :
    ∀ (pre : List Product) (outs : List (Option Product)) (w : World),
      b.detailsAnswered env w.requests pre outs →
      (∀ c ∈ mkdirChain (b.dir env), lookupFile w.fs.files c = none) →
      (∀ qo ∈ pre.zip outs, qo.2 ≠ none → b.writable env w.fs qo.1.Slug) →
      ∃ w1, b.buildLoop env (pre ++ tail) w = b.buildLoop env tail w1
        ∧ w1.fs.files = b.filesAfter env yaml date pre outs w.fs.files
        ∧ w1.requests = w.requests ++ pre.map (fun q => b.detailRequest q.Slug)
        ∧ w1.stderr = w.stderr
        ∧ (∀ x ∈ w1.fs.dirs, x ∈ w.fs.dirs ∨ x ∈ mkdirChain (b.dir env))
        ∧ (∀ c ∈ mkdirChain (b.dir env), lookupFile w1.fs.files c = none) := by
  intro pre
  induction pre with
  | nil =>
    intro outs w hans hchain _
    cases outs with
    | nil => exact ⟨w, rfl, rfl, by simp, rfl, fun x hx => Or.inl hx, hchain⟩
    | cons o outs => exact absurd hans (by simp [productBuilder.detailsAnswered])
  | cons q ps ih =>
    intro outs w hans hchain hwritable
    cases outs with
    | nil => exact absurd hans (by simp [productBuilder.detailsAnswered])
    | cons o outs =>
      obtain ⟨hnew, ho, hrest⟩ := hans
      obtain ⟨fs1, hfs1, hfiles1, hdirmem, hdirs1, _⟩ :=
        osMkdirAll_ok env w.fs (b.dir env) (hmk _ _) hchain
      cases o with
      | none =>
        obtain ⟨err, hresp⟩ := ho
        have hget := productBuilder.getProduct_transport_error env b q.Slug err
          { w with fs := fs1 } hnew hresp
        obtain ⟨w1, hw1, hw1files, hw1req, hw1err, hw1dirs, hw1chain⟩ := ih outs
          { fs := fs1, requests := w.requests ++ [b.detailRequest q.Slug],
            stdout := w.stdout ++ ["Error when sending request to the server\n"],
            stderr := w.stderr,
            log := w.log ++ ["Could not write product: " ++ q.Name] }
          hrest (by rw [hfiles1]; exact hchain)
          (fun qo hqo hne => by
            obtain ⟨h1, h2, h3⟩ := hwritable qo (List.mem_cons_of_mem _ hqo) hne
            refine ⟨?_, h2, h3⟩
            intro hin
            rcases hdirs1 _ hin with h | h
            · exact h1 h
            · exact h2 h)
        refine ⟨w1, ?_, ?_, ?_, hw1err, ?_, hw1chain⟩
        · rw [List.cons_append, productBuilder.buildLoop]
          simp only [hfs1, hget]
          exact hw1
        · rw [hw1files]
          show _ = b.filesAfter env yaml date ps outs w.fs.files
          rw [hfiles1]
        · rw [hw1req]
          simp
        · intro x hx
          rcases hw1dirs x hx with h | h
          · exact hdirs1 x h
          · exact Or.inr h
      | some d =>
        obtain ⟨status, body, hresp, hdec⟩ := ho
        have hget := productBuilder.getProduct_ok env b q.Slug status body d
          { w with fs := fs1 } hnew hresp hdec
        rw [hdate] at hget
        obtain ⟨hw1, hw2, hw3⟩ := hwritable (q, some d) (by simp) (by simp)
        have hnd : b.fileOf env q.Slug ∉ fs1.dirs := by
          intro hin
          rcases hdirs1 _ hin with h | h
          · exact hw1 h
          · exact hw2 h
        obtain ⟨w2, hwr, hw2fs, hw2req, _, hw2err⟩ :=
          writeDocument_ok env (b.dir env) (q.Slug ++ ".md")
            (yaml (transformed d date))
            { fs := fs1, requests := w.requests ++ [b.detailRequest q.Slug],
              stdout := w.stdout, stderr := w.stderr, log := w.log }
            hnd (parentExists_of_parent fs1 _ _ hdirmem hw3)
            (fun fs => hcreate fs _) (fun fs s => hwrite fs _ s) (fun fs => hclose fs _)
        have hw2files : w2.fs.files = setFile w.fs.files (b.fileOf env q.Slug)
            (frontMatter (yaml (transformed d date))) := by
          rw [hw2fs]
          show setFile fs1.files _ _ = _
          rw [hfiles1]
          rfl
        have hw2dirs : w2.fs.dirs = fs1.dirs := by rw [hw2fs]
        obtain ⟨w3, hw3eq, hw3files, hw3req, hw3err, hw3dirs, hw3chain⟩ := ih outs w2
          (by rw [hw2req]; exact hrest)
          (fun c hc => by
            have hne : c ≠ b.fileOf env q.Slug := fun heq => hw2 (heq ▸ hc)
            rw [hw2files, lookupFile_setFile_ne _ _ _ _ hne]
            exact hchain c hc)
          (fun qo hqo hne => by
            obtain ⟨h1, h2, h3⟩ := hwritable qo (List.mem_cons_of_mem _ hqo) hne
            refine ⟨?_, h2, h3⟩
            intro hin
            rw [hw2dirs] at hin
            rcases hdirs1 _ hin with h | h
            · exact h1 h
            · exact h2 h)
        refine ⟨w3, ?_, ?_, ?_, ?_, ?_, hw3chain⟩
        · have hwrite1 : b.write env (b.dir env) (q.Slug ++ ".md")
              (transformed d date)
              { fs := fs1, requests := w.requests ++ [b.detailRequest q.Slug],
                stdout := w.stdout, stderr := w.stderr, log := w.log } = Result.ok () w2 := by
            unfold productBuilder.write
            rw [hyaml]
            exact hwr
          rw [List.cons_append, productBuilder.buildLoop]
          simp only [hfs1, hget, hwrite1]
          exact hw3eq
        · rw [hw3files, hw2files]
          rfl
        · rw [hw3req, hw2req]
          simp
        · rw [hw3err, hw2err]
        · intro x hx
          rcases hw3dirs x hx with h | h
          · rw [hw2dirs] at h
            exact hdirs1 x h
          · exact Or.inr h

/-- C1 (as stated, refuted): the list holds `a` and `b`, the detail of `a` is
answered 404 and the detail of `b` alone is fetched with success; the run
leaves through `os.Exit(1)` at `a`, `b` is never requested and no file
exists at the end. -/
theorem productBuilder.Build_non200_detail_aborts :
    (productBuilder.getProduct missingEnv sampleProducts "b" emptyWorld).value
      = some (some { sampleProduct "b" "B" with Title := "B", Name := "", Date := sampleDate })
    ∧ (productBuilder.Build missingEnv sampleProducts 1 emptyWorld).exitCode = some 1
    ∧ (productBuilder.Build missingEnv sampleProducts 1 emptyWorld).world.fs.files = []
    ∧ (productBuilder.Build missingEnv sampleProducts 1 emptyWorld).world.requests
        = [samplePageRequest 0, sampleProducts.detailRequest "a"] := by
  decide

/-- C1 (amended): the products `pre` listed before `product` are each fetched
with success (`some d` in `outs`) or skipped after an error of the HTTP client
(`none`), and the detail fetch of `product` receives a non-200 response with
the body `responseBody`.  Then the run ends at `product` through
`os.Exit(1)`, with the status line and the body written to standard error; no
file is written for `product`; the files are those of the products of `pre`
fetched with success, each of which has its file; and the request for
`product` is the last one sent, so that no later product is fetched or
written.  (No file-system call is refused, the encoder accepts every record,
and the clock stays on the day `date`.) -/
theorem productBuilder.buildLoop_non200_detail_exits (env : Env) (b : productBuilder)
    (yaml : Product → String) (date : Time) (pre : List Product)
    (outs : List (Option Product)) (product : Product) (rest : List Product) (w : World)
    (statusCode : Nat) (status responseBody : String)
    (hmk : ∀ fs p, env.mkdirAllError fs p = none)
    (hcreate : ∀ fs p, env.createError fs p = none)
    (hwrite : ∀ fs p s, env.writeError fs p s = none)
    (hclose : ∀ fs p, env.closeError fs p = none)
    (hyaml : ∀ p, env.yamlProduct p = Except.ok (yaml p))
    (hdate : ∀ w0, runDate (env.now w0) = date)
    (hpre : b.detailsAnswered env w.requests pre outs)
    (hchain : ∀ c ∈ mkdirChain (b.dir env), lookupFile w.fs.files c = none)
    (hwritable : ∀ qo ∈ pre.zip outs, qo.2 ≠ none → b.writable env w.fs qo.1.Slug)
    (hnew : env.newRequestError "GET" (b.apiURL ++ "/v1/product/slug/" ++ product.Slug) = none)
    (hresp : env.roundTrip (w.requests ++ pre.map (fun q => b.detailRequest q.Slug))
        (b.detailRequest product.Slug)
      = HttpResult.response statusCode status (Except.ok responseBody))
    (hcode : statusCode ≠ 200) :
    ∃ w1, b.buildLoop env (pre ++ product :: rest) w = Result.osExit 1 w1
      ∧ w1.stderr = w.stderr ++ ["\n\nerror: " ++ status ++ "\n" ++ responseBody ++ "\n"]
      ∧ w1.fs.files = b.filesAfter env yaml date pre outs w.fs.files
      ∧ (∀ qo ∈ pre.zip outs, qo.2 ≠ none →
          (lookupFile w1.fs.files (b.fileOf env qo.1.Slug)).isSome = true)
      ∧ w1.requests = w.requests ++ pre.map (fun q => b.detailRequest q.Slug)
          ++ [b.detailRequest product.Slug] := by
  obtain ⟨w0, hw0, hw0files, hw0req, hw0err, _, hw0chain⟩ :=
    productBuilder.buildLoop_benign env b yaml date hmk hcreate hwrite hclose hyaml hdate
      (product :: rest) pre outs w hpre hchain hwritable
  obtain ⟨fs1, hfs1, hfiles1, _, _, _⟩ :=
    osMkdirAll_ok env w0.fs (b.dir env) (hmk _ _) hw0chain
  rw [← hw0req] at hresp
  obtain ⟨w1, hw1⟩ : ∃ w1 : World, w1 =
      { fs := fs1, requests := w0.requests ++ [b.detailRequest product.Slug],
        stdout := w0.stdout,
        stderr := w0.stderr ++ ["\n\nerror: " ++ status ++ "\n" ++ responseBody ++ "\n"],
        log := w0.log } := ⟨_, rfl⟩
  have hexit : b.buildLoop env (product :: rest) w0 = Result.osExit 1 w1 := by
    rw [productBuilder.buildLoop]
    simp [hfs1, productBuilder.getProduct, hnew, hresp, hcode, hw1, World.eprint, statusBanner]
  have hfiles : w1.fs.files = b.filesAfter env yaml date pre outs w.fs.files := by
    rw [hw1]
    show fs1.files = _
    rw [hfiles1, hw0files]
  refine ⟨w1, ?_, ?_, hfiles, ?_, ?_⟩
  · rw [hw0, hexit]
  · rw [hw1]
    show w0.stderr ++ _ = _
    rw [hw0err]
  · intro qo hqo hne
    rw [hfiles]
    exact productBuilder.filesAfter_written env b yaml date pre outs w.fs.files qo hqo hne
  · rw [hw1]
    show w0.requests ++ _ = _
    rw [hw0req]

theorem productBuilder.buildLoop_non200_detail_exits_witness :
    ∃ w1, productBuilder.buildLoop missingEnv sampleProducts
        ([sampleProduct "b" "B"] ++ sampleProduct "a" "A" :: [sampleProduct "c" "C"])
        emptyWorld = Result.osExit 1 w1
      ∧ w1.stderr = [] ++ ["\n\nerror: " ++ "404 Not Found" ++ "\n" ++ "missing" ++ "\n"]
      ∧ w1.fs.files = [("out/product/b.md", "---\nslug: b\ntitle: B\n---")]
      ∧ (∀ qo ∈ [sampleProduct "b" "B"].zip [some (sampleProduct "b" "B")], qo.2 ≠ none →
          (lookupFile w1.fs.files (sampleProducts.fileOf missingEnv qo.1.Slug)).isSome = true)
      ∧ w1.requests = [] ++ [sampleProduct "b" "B"].map
            (fun q => sampleProducts.detailRequest q.Slug)
          ++ [sampleProducts.detailRequest "a"] :=
  productBuilder.buildLoop_non200_detail_exits missingEnv sampleProducts sampleYamlProduct
    sampleDate [sampleProduct "b" "B"] [some (sampleProduct "b" "B")] (sampleProduct "a" "A")
    [sampleProduct "c" "C"] emptyWorld 404 "404 Not Found" "missing"
    (fun _ _ => rfl) (fun _ _ => rfl) (fun _ _ _ => rfl) (fun _ _ => rfl) (fun _ => rfl)
    (fun _ => (by decide : runDate sampleTime = sampleDate)) ⟨rfl, ⟨"200 OK", "b", rfl, rfl⟩, trivial⟩ (by decide) (by decide)
    rfl rfl (by decide)

/-- C8: the products `pre` and `rest` listed before and after `product` are
each fetched with success or skipped after an error of the HTTP client, and
for the detail request of `product` the HTTP client returns an error.  Then
`getProduct` returns nil for `product`; the loop writes no file at its step
and goes on with whatever follows it; and the run returns normally, having
sent the detail request of every product of the list, with the files of the
products fetched with success before and after `product`, each of which has
its file, and nothing on standard error.  (No file-system call is refused,
the encoder accepts every record, and the clock stays on the day `date`.) -/
theorem productBuilder.buildLoop_transport_error_skips (env : Env) (b : productBuilder)
    (yaml : Product → String) (date : Time) (pre : List Product)
    (opre : List (Option Product)) (product : Product) (rest : List Product)
    (orest : List (Option Product)) (w : World) (err : String)
    (hmk : ∀ fs p, env.mkdirAllError fs p = none)
    (hcreate : ∀ fs p, env.createError fs p = none)
    (hwrite : ∀ fs p s, env.writeError fs p s = none)
    (hclose : ∀ fs p, env.closeError fs p = none)
    (hyaml : ∀ p, env.yamlProduct p = Except.ok (yaml p))
    (hdate : ∀ w0, runDate (env.now w0) = date)
    (hpre : b.detailsAnswered env w.requests pre opre)
    (hnew : env.newRequestError "GET" (b.apiURL ++ "/v1/product/slug/" ++ product.Slug) = none)
    (hresp : env.roundTrip (w.requests ++ pre.map (fun q => b.detailRequest q.Slug))
        (b.detailRequest product.Slug) = HttpResult.transportError err)
    (hrest : b.detailsAnswered env
        (w.requests ++ pre.map (fun q => b.detailRequest q.Slug)
          ++ [b.detailRequest product.Slug]) rest orest)
    (hchain : ∀ c ∈ mkdirChain (b.dir env), lookupFile w.fs.files c = none)
    (hwritable : ∀ qo ∈ pre.zip opre ++ rest.zip orest, qo.2 ≠ none →
      b.writable env w.fs qo.1.Slug) :
    (∀ w0 e, env.roundTrip w0.requests (b.detailRequest product.Slug)
        = HttpResult.transportError e →
      (b.getProduct env product.Slug w0).value = some none)
    ∧ (∀ tail, ∃ w1, b.buildLoop env (pre ++ product :: tail) w = b.buildLoop env tail w1
        ∧ w1.fs.files = b.filesAfter env yaml date pre opre w.fs.files
        ∧ w1.requests = w.requests ++ pre.map (fun q => b.detailRequest q.Slug)
            ++ [b.detailRequest product.Slug]
        ∧ w1.stderr = w.stderr)
    ∧ ∃ w2, b.buildLoop env (pre ++ product :: rest) w = Result.ok () w2
      ∧ w2.fs.files
        = b.filesAfter env yaml date rest orest
            (b.filesAfter env yaml date pre opre w.fs.files)
      ∧ (∀ qo ∈ rest.zip orest, qo.2 ≠ none →
          (lookupFile w2.fs.files (b.fileOf env qo.1.Slug)).isSome = true)
      ∧ w2.requests
        = w.requests ++ (pre ++ product :: rest).map (fun q => b.detailRequest q.Slug)
      ∧ w2.stderr = w.stderr := by
  have hskip : ∀ tail, ∃ w1, b.buildLoop env (pre ++ product :: tail) w = b.buildLoop env tail w1
      ∧ w1.fs.files = b.filesAfter env yaml date pre opre w.fs.files
      ∧ w1.requests = w.requests ++ pre.map (fun q => b.detailRequest q.Slug)
          ++ [b.detailRequest product.Slug]
      ∧ w1.stderr = w.stderr
      ∧ (∀ x ∈ w1.fs.dirs, x ∈ w.fs.dirs ∨ x ∈ mkdirChain (b.dir env))
      ∧ (∀ c ∈ mkdirChain (b.dir env), lookupFile w1.fs.files c = none) := by
    intro tail
    obtain ⟨w0, hw0, hw0files, hw0req, hw0err, hw0dirs, hw0chain⟩ :=
      productBuilder.buildLoop_benign env b yaml date hmk hcreate hwrite hclose hyaml hdate
        (product :: tail) pre opre w hpre hchain
        (fun qo hqo hne => hwritable qo (List.mem_append_left _ hqo) hne)
    obtain ⟨w1, hw1, hw1files, hw1req, hw1err, hw1dirs, hw1chain⟩ :=
      productBuilder.buildLoop_benign env b yaml date hmk hcreate hwrite hclose hyaml hdate
        tail [product] [none] w0
        ⟨hnew, ⟨err, by rw [hw0req]; exact hresp⟩, trivial⟩ hw0chain
        (fun qo hqo hne => by simp at hqo; subst hqo; exact absurd rfl hne)
    refine ⟨w1, ?_, ?_, ?_, ?_, ?_, hw1chain⟩
    · rw [hw0]
      exact hw1
    · rw [hw1files]
      show w0.fs.files = _
      exact hw0files
    · rw [hw1req, hw0req]
      simp
    · rw [hw1err, hw0err]
    · intro x hx
      rcases hw1dirs x hx with h | h
      · exact hw0dirs x h
      · exact Or.inr h
  refine ⟨?_, ?_, ?_⟩
  · intro w0 e he
    rw [productBuilder.getProduct_transport_error env b product.Slug e w0 hnew he]
    rfl
  · intro tail
    obtain ⟨w1, h1, h2, h3, h4, _, _⟩ := hskip tail
    exact ⟨w1, h1, h2, h3, h4⟩
  · obtain ⟨w1, hw1, hw1files, hw1req, hw1err, hw1dirs, hw1chain⟩ := hskip rest
    obtain ⟨w2, hw2, hw2files, hw2req, hw2err, _, _⟩ :=
      productBuilder.buildLoop_benign env b yaml date hmk hcreate hwrite hclose hyaml hdate
        [] rest orest w1 (by rw [hw1req]; exact hrest) hw1chain
        (fun qo hqo hne => by
          obtain ⟨h1, h2, h3⟩ := hwritable qo (List.mem_append_right _ hqo) hne
          refine ⟨?_, h2, h3⟩
          intro hin
          rcases hw1dirs _ hin with h | h
          · exact h1 h
          · exact h2 h)
    have hfiles : w2.fs.files = b.filesAfter env yaml date rest orest
        (b.filesAfter env yaml date pre opre w.fs.files) := by
      rw [hw2files, hw1files]
    refine ⟨w2, ?_, hfiles, ?_, ?_, ?_⟩
    · rw [hw1]
      rw [List.append_nil] at hw2
      rw [hw2]
      rfl
    · intro qo hqo hne
      rw [hfiles]
      exact productBuilder.filesAfter_written env b yaml date rest orest _ qo hqo hne
    · rw [hw2req, hw1req]
      simp
    · rw [hw2err, hw1err]

theorem productBuilder.buildLoop_transport_error_skips_witness :
    (∀ w0 e, unreachableEnv.roundTrip w0.requests (sampleProducts.detailRequest "a")
        = HttpResult.transportError e →
      (productBuilder.getProduct unreachableEnv sampleProducts "a" w0).value = some none)
    ∧ (∀ tail, ∃ w1,
        productBuilder.buildLoop unreachableEnv sampleProducts
          ([sampleProduct "b" "B"] ++ sampleProduct "a" "A" :: tail) emptyWorld
          = productBuilder.buildLoop unreachableEnv sampleProducts tail w1
        ∧ w1.fs.files = [("out/product/b.md", "---\nslug: b\ntitle: B\n---")]
        ∧ w1.requests = [] ++ [sampleProduct "b" "B"].map
              (fun q => sampleProducts.detailRequest q.Slug)
            ++ [sampleProducts.detailRequest "a"]
        ∧ w1.stderr = [])
    ∧ ∃ w2,
      productBuilder.buildLoop unreachableEnv sampleProducts
        ([sampleProduct "b" "B"] ++ sampleProduct "a" "A" :: [sampleProduct "c" "C"])
        emptyWorld = Result.ok () w2
      ∧ w2.fs.files
        = [("out/product/b.md", "---\nslug: b\ntitle: B\n---"),
           ("out/product/c.md", "---\nslug: c\ntitle: C\n---")]
      ∧ (∀ qo ∈ [sampleProduct "c" "C"].zip [some (sampleProduct "c" "C")], qo.2 ≠ none →
          (lookupFile w2.fs.files (sampleProducts.fileOf unreachableEnv qo.1.Slug)).isSome
            = true)
      ∧ w2.requests
        = [] ++ ([sampleProduct "b" "B"] ++ sampleProduct "a" "A" :: [sampleProduct "c" "C"]).map
            (fun q => sampleProducts.detailRequest q.Slug)
      ∧ w2.stderr = [] :=
  productBuilder.buildLoop_transport_error_skips unreachableEnv sampleProducts
    sampleYamlProduct sampleDate [sampleProduct "b" "B"] [some (sampleProduct "b" "B")]
    (sampleProduct "a" "A") [sampleProduct "c" "C"] [some (sampleProduct "c" "C")] emptyWorld
    "connection refused"
    (fun _ _ => rfl) (fun _ _ => rfl) (fun _ _ _ => rfl) (fun _ _ => rfl) (fun _ => rfl)
    (fun _ => (by decide : runDate sampleTime = sampleDate))
    ⟨rfl, ⟨"200 OK", "b", rfl, rfl⟩, trivial⟩ rfl rfl
    ⟨rfl, ⟨"200 OK", "c", rfl, rfl⟩, trivial⟩ (by decide) (by decide)

/-- C3 (the code at the failing input): page 0 of the list is served and
announces two pages, the connection for page 1 fails.  `getProducts` returns
nil, dropping the product of page 0, and `Build` returns normally: no
`os.Exit`, nothing on standard error, no product file. -/
theorem productBuilder.Build_list_transport_error_returns :
    (productBuilder.getProducts brokenListEnv sampleProducts 2 emptyWorld).value = some []
    ∧ (productBuilder.Build brokenListEnv sampleProducts 2 emptyWorld).value = some ()
    ∧ (productBuilder.Build brokenListEnv sampleProducts 2 emptyWorld).exitCode = none
    ∧ (productBuilder.Build brokenListEnv sampleProducts 2 emptyWorld).world
        = { emptyWorld with
            requests := [samplePageRequest 0, samplePageRequest 1],
            stdout := ["Error when sending request to the server\n"] } := by
  decide

/-! ## The pagination loop (C2, C5, C10) -/

theorem productBuilder.getProductsLoop_done (env : Env) (b : productBuilder) (fuel : Nat)
    (i totalPages : Int) (products : List Product) (w : World) (h : ¬ i < totalPages) :
    b.getProductsLoop env fuel i totalPages products w = Result.ok products w := by
  cases fuel <;> simp [productBuilder.getProductsLoop, h]

theorem productBuilder.getProductsLoop_step (env : Env) (b : productBuilder) (fuel : Nat)
    (i totalPages : Int) (products : List Product) (w : World) (status body : String)
    (e : GetAllProductsResponse) (h : i < totalPages)
    (hnew : env.newRequestError "GET" (b.listRequest env i).url = none)
    (hresp : env.roundTrip w.requests (b.listRequest env i)
      = HttpResult.response 200 status (Except.ok body))
    (hdec : env.unmarshalProducts body = Except.ok e) :
    b.getProductsLoop env (fuel + 1) i totalPages products w
      = b.getProductsLoop env fuel (i + 1) e.TotalPages (products ++ e.Products)
          { w with requests := w.requests ++ [b.listRequest env i] } := by
  rw [productBuilder.getProductsLoop]
  simp [h, hnew, hresp, hdec]

/-- Whatever the outcome, the requests recorded at the end start with those
recorded at the beginning. -/
theorem productBuilder.getProductsLoop_requests (env : Env) (b : productBuilder) :
    ∀ (fuel : Nat) (i totalPages : Int) (products : List Product) (w : World),
      ∃ tail, (b.getProductsLoop env fuel i totalPages products w).world.requests
        = w.requests ++ tail := by
  intro fuel
  induction fuel with
  | zero =>
    intro i totalPages products w
    refine ⟨[], ?_⟩
    by_cases h : i < totalPages <;> simp [productBuilder.getProductsLoop, h, Result.world]
  | succ fuel ih =>
    intro i totalPages products w
    rw [productBuilder.getProductsLoop]
    by_cases h : i < totalPages
    · simp only [h, if_true]
      cases hnew : env.newRequestError "GET" (b.listRequest env i).url with
      | some err => exact ⟨[], by simp [Result.world, World.eprint]⟩
      | none =>
        cases hresp : env.roundTrip w.requests (b.listRequest env i) with
        | transportError err =>
          exact ⟨[b.listRequest env i], by simp [Result.world, World.print]⟩
        | response statusCode status body =>
          cases body with
          | error err => exact ⟨[b.listRequest env i], by simp [Result.world, World.eprint]⟩
          | ok responseBody =>
            by_cases hcode : statusCode = 200
            · cases hdec : env.unmarshalProducts responseBody with
              | error err =>
                exact ⟨[b.listRequest env i], by simp [hcode, hdec, Result.world, World.eprint]⟩
              | ok e =>
                obtain ⟨tail, htail⟩ := ih (i + 1) e.TotalPages (products ++ e.Products)
                  { w with requests := w.requests ++ [b.listRequest env i] }
                refine ⟨b.listRequest env i :: tail, ?_⟩
                simp only [hcode, hdec, if_true]
                rw [htail]
                simp
            · exact ⟨[b.listRequest env i], by simp [hcode, Result.world, World.eprint]⟩
    · exact ⟨[], by simp [h, Result.world]⟩
theorem productBuilder.getProductsLoop_pages (env : Env) (b : productBuilder) (w0 : World)
    (page : Nat → GetAllProductsResponse) (k : Nat)
    (hnew : ∀ j, j < k → env.newRequestError "GET" (b.listRequest env (j : Int)).url = none)
    (hresp : ∀ j, j < k → ∃ status body,
      env.roundTrip (w0.requests ++ (List.range j).map (fun (t : Nat) => b.listRequest env (t : Int)))
          (b.listRequest env (j : Int)) = HttpResult.response 200 status (Except.ok body)
      ∧ env.unmarshalProducts body = Except.ok (page j))
    (hcont : ∀ j, j + 1 < k → ((j + 1 : Nat) : Int) < (page j).TotalPages)
    (hstop : 0 < k → ¬ ((k : Int) < (page (k - 1)).TotalPages)) :
    ∀ (n i : Nat) (totalPages : Int) (products : List Product) (fuel : Nat),
      i + n = k → (((i : Int) < totalPages) ↔ 0 < n) → n ≤ fuel →
      b.getProductsLoop env fuel (i : Int) totalPages products
          { w0 with requests :=
              w0.requests ++ (List.range i).map (fun (t : Nat) => b.listRequest env (t : Int)) }
        = Result.ok
            (products ++ ((List.range' i n).map (fun j => (page j).Products)).flatten)
            { w0 with requests :=
                w0.requests ++ (List.range k).map (fun (t : Nat) => b.listRequest env (t : Int)) } := by
  intro n
  induction n with
  | zero =>
    intro i totalPages products fuel hik hlt _
    have hnot : ¬ (i : Int) < totalPages := by
      intro h
      exact absurd (hlt.1 h) (by decide)
    rw [productBuilder.getProductsLoop_done env b fuel _ _ _ _ hnot]
    have : i = k := by omega
    subst this
    simp
  | succ n ih =>
    intro i totalPages products fuel hik hlt hfuel
    have hi : (i : Int) < totalPages := hlt.2 (Nat.succ_pos n)
    have hik1 : i < k := by omega
    obtain ⟨status, body, hr, hd⟩ := hresp i hik1
    obtain ⟨fuel1, rfl⟩ : ∃ fuel1, fuel = fuel1 + 1 := ⟨fuel - 1, by omega⟩
    rw [productBuilder.getProductsLoop_step env b fuel1 _ _ _ _ status body (page i) hi
      (hnew i hik1) hr hd]
    have hworld : ({ w0 with requests :=
        w0.requests ++ (List.range i).map (fun (t : Nat) => b.listRequest env (t : Int)) } : World).requests
          ++ [b.listRequest env (i : Int)]
        = w0.requests ++ (List.range (i + 1)).map (fun (t : Nat) => b.listRequest env (t : Int)) := by
      simp [List.range_succ]
    have hnext : (((i + 1 : Nat) : Int) < (page i).TotalPages) ↔ 0 < n := by
      constructor
      · intro h
        by_contra hn
        have hn0 : n = 0 := by omega
        have hk : i + 1 = k := by omega
        have hs := hstop (by omega)
        rw [← hk] at hs
        simp at hs
        omega
      · intro hn
        exact hcont i (by omega)
    have := ih (i + 1) (page i).TotalPages (products ++ (page i).Products) fuel1 (by omega)
      hnext (by omega)
    simp only [hworld]
    rw [show ((i : Int) + 1) = ((i + 1 : Nat) : Int) by push_cast; rfl]
    rw [this]
    simp [List.range'_succ]

theorem productBuilder.getProducts_pages (env : Env) (b : productBuilder)
    (w : World) (page : Nat → GetAllProductsResponse) (k fuel : Nat)
    (hk : 1 ≤ k)
    (hnew : ∀ j, j < k → env.newRequestError "GET" (b.listRequest env (j : Int)).url = none)
    (hresp : ∀ j, j < k → ∃ status body,
      env.roundTrip (w.requests ++ (List.range j).map (fun (t : Nat) => b.listRequest env (t : Int)))
          (b.listRequest env (j : Int)) = HttpResult.response 200 status (Except.ok body)
      ∧ env.unmarshalProducts body = Except.ok (page j))
    (hcont : ∀ j, j + 1 < k → ((j + 1 : Nat) : Int) < (page j).TotalPages)
    (hstop : ¬ ((k : Int) < (page (k - 1)).TotalPages))
    (hfuel : k ≤ fuel) :
    b.getProducts env fuel w
      = Result.ok (((List.range k).map (fun j => (page j).Products)).flatten)
          { w with requests :=
              w.requests ++ (List.range k).map (fun (t : Nat) => b.listRequest env (t : Int)) } := by
  have h := productBuilder.getProductsLoop_pages env b w page k hnew hresp hcont
    (fun _ => hstop) k 0 1 [] fuel (by omega)
    (by constructor
        · intro _; omega
        · intro _; decide) hfuel
  unfold productBuilder.getProducts
  have hw : ({ w with requests :=
      w.requests ++ (List.range 0).map (fun (t : Nat) => b.listRequest env (t : Int)) } : World) = w := by
    cases w; simp
  rw [hw] at h
  rw [show ((0 : Nat) : Int) = 0 from rfl] at h
  rw [h, List.range_eq_range']
  simp

/-- With every list request answered 200 and decodable, the responses along
the run can be named in advance: `page j` answers the request for page `j`
sent after the requests for the pages before it. -/
theorem productBuilder.exists_pages (env : Env) (b : productBuilder) (w : World)
    (good : GetAllProductsResponse → Prop)
    (hserve : ∀ (hist : List Request) (i : Int), ∃ status body e,
      env.roundTrip hist (b.listRequest env i) = HttpResult.response 200 status (Except.ok body)
      ∧ env.unmarshalProducts body = Except.ok e ∧ good e) :
    ∃ page : Nat → GetAllProductsResponse, (∀ j, good (page j)) ∧
      ∀ j, ∃ status body,
        env.roundTrip (w.requests ++ (List.range j).map (fun (t : Nat) => b.listRequest env (t : Int)))
            (b.listRequest env (j : Int)) = HttpResult.response 200 status (Except.ok body)
        ∧ env.unmarshalProducts body = Except.ok (page j) := by
  choose status body e h1 h2 h3 using hserve
  refine ⟨fun j => e (w.requests ++ (List.range j).map (fun (t : Nat) => b.listRequest env (t : Int))) j,
    fun j => h3 _ _, fun j => ⟨_, _, h1 _ _, h2 _ _⟩⟩

/-- C5: `k` pages are requested, the one for page `j` (sent after those for
pages `0 .. j-1`) is answered 200 with a body that decodes to `page j`, each
announces more pages than were asked for so far, except the last.  Then, given
fuel for `k` iterations, `getProducts` returns the products lists of
`page 0, ..., page (k-1)` appended in that order, nothing removed: its length
is the sum of the lengths of these lists. -/
theorem productBuilder.getProducts_concatenates_pages (env : Env) (b : productBuilder)
    (w : World) (page : Nat → GetAllProductsResponse) (k fuel : Nat)
    (hk : 1 ≤ k)
    (hnew : ∀ j, j < k → env.newRequestError "GET" (b.listRequest env (j : Int)).url = none)
    (hresp : ∀ j, j < k → ∃ status body,
      env.roundTrip (w.requests ++ (List.range j).map (fun (t : Nat) => b.listRequest env (t : Int)))
          (b.listRequest env (j : Int)) = HttpResult.response 200 status (Except.ok body)
      ∧ env.unmarshalProducts body = Except.ok (page j))
    (hcont : ∀ j, j + 1 < k → ((j + 1 : Nat) : Int) < (page j).TotalPages)
    (hstop : ¬ ((k : Int) < (page (k - 1)).TotalPages))
    (hfuel : k ≤ fuel) :
    b.getProducts env fuel w
      = Result.ok (((List.range k).map (fun j => (page j).Products)).flatten)
          { w with requests :=
              w.requests ++ (List.range k).map (fun (t : Nat) => b.listRequest env (t : Int)) }
    ∧ (((List.range k).map (fun j => (page j).Products)).flatten).length
      = ((List.range k).map (fun j => (page j).Products.length)).sum := by
  constructor
  · exact productBuilder.getProducts_pages env b w page k fuel hk hnew hresp hcont hstop hfuel
  · rw [List.length_flatten, List.map_map]
    rfl

theorem productBuilder.getProducts_concatenates_pages_witness :
    productBuilder.getProducts repeatEnv sampleProducts 2 emptyWorld
      = Result.ok [sampleProduct "a" "A", sampleProduct "b" "B", sampleProduct "a" "A again"]
          { emptyWorld with
            requests := [] ++ [samplePageRequest 0, samplePageRequest 1] }
    ∧ [sampleProduct "a" "A", sampleProduct "b" "B", sampleProduct "a" "A again"].length
      = [2, 1].sum :=
  productBuilder.getProducts_concatenates_pages repeatEnv sampleProducts emptyWorld repeatPage
    2 2 (by decide) (fun _ _ => rfl)
    (fun j hj => by
      interval_cases j
      · exact ⟨"200 OK", "first", rfl, rfl⟩
      · exact ⟨"200 OK", "second", rfl, rfl⟩)
    (fun j hj => by
      have h0 : j = 0 := by omega
      subst h0
      decide)
    (by decide) (by decide)

theorem productBuilder.getProductsLoop_first_request (env : Env) (b : productBuilder)
    (fuel : Nat) (i totalPages : Int) (products : List Product) (w : World)
    (h : i < totalPages) (hnew : env.newRequestError "GET" (b.listRequest env i).url = none) :
    ∃ tail, (b.getProductsLoop env (fuel + 1) i totalPages products w).world.requests
      = w.requests ++ b.listRequest env i :: tail := by
  rw [productBuilder.getProductsLoop]
  simp only [h, if_true, hnew]
  cases hresp : env.roundTrip w.requests (b.listRequest env i) with
  | transportError err => exact ⟨[], by simp [Result.world, World.print]⟩
  | response statusCode status body =>
    cases body with
    | error err => exact ⟨[], by simp [Result.world, World.eprint]⟩
    | ok responseBody =>
      by_cases hcode : statusCode = 200
      · cases hdec : env.unmarshalProducts responseBody with
        | error err => exact ⟨[], by simp [hcode, hdec, Result.world, World.eprint]⟩
        | ok e =>
          obtain ⟨tail, htail⟩ := productBuilder.getProductsLoop_requests env b fuel (i + 1)
            e.TotalPages (products ++ e.Products)
            { w with requests := w.requests ++ [b.listRequest env i] }
          refine ⟨tail, ?_⟩
          simp only [hcode, hdec, if_true]
          rw [htail]
          simp
      · exact ⟨[], by simp [hcode, Result.world, World.eprint]⟩

/-- C2 (as stated, refuted): every list response is 200 and announces
`total_pages = 0`; one request, for page 0, is sent all the same. -/
theorem productBuilder.getProducts_zero_pages_one_request :
    (constantEnv 0).unmarshalProducts "page"
      = Except.ok { Products := [], TotalRecords := 0, TotalPages := 0 }
    ∧ (productBuilder.getProducts (constantEnv 0) sampleProducts 1 emptyWorld).value = some []
    ∧ (productBuilder.getProducts (constantEnv 0) sampleProducts 1 emptyWorld).world.requests
        = [{ method := "GET", url := "http://api/v1/products/0/1000", storeKey := "key" }] :=
  ⟨rfl, by decide, by decide⟩

/-- C2 (amended): when every list response is 200 with a decodable envelope
that announces `total_pages = P`, `getProducts` (given fuel for them) returns
after exactly `max 1 P` list requests, for the pages `0, 1, ..., max 1 P - 1`
in that order, each with page size 1000: `P` requests when `P ≥ 1`, and the
one request for page 0 when `P = 0`. -/
theorem productBuilder.getProducts_requests_each_page_once (env : Env) (b : productBuilder)
    (w : World) (P fuel : Nat)
    (hnew : ∀ i : Int, env.newRequestError "GET" (b.listRequest env i).url = none)
    (hserve : ∀ (hist : List Request) (i : Int), ∃ status body e,
      env.roundTrip hist (b.listRequest env i) = HttpResult.response 200 status (Except.ok body)
      ∧ env.unmarshalProducts body = Except.ok e ∧ e.TotalPages = (P : Int))
    (hfuel : max 1 P ≤ fuel) :
    ∃ products w1, b.getProducts env fuel w = Result.ok products w1
      ∧ w1.requests = w.requests ++ (List.range (max 1 P)).map (fun (j : Nat) =>
          ({ method := "GET",
             url := env.sprintf (b.apiURL ++ "/v1/products/%d/%d") (j : Int) 1000,
             storeKey := b.storeKey } : Request)) := by
  obtain ⟨page, hgood, hpage⟩ := productBuilder.exists_pages env b w
    (fun e => e.TotalPages = (P : Int)) hserve
  have h := productBuilder.getProducts_pages env b w page (max 1 P) fuel (by omega)
    (fun j _ => hnew _) (fun j _ => hpage j)
    (fun j hj => by rw [hgood j]; omega)
    (by rw [hgood]; omega) hfuel
  exact ⟨_, _, h, rfl⟩

theorem productBuilder.getProducts_requests_each_page_once_witness :
    ∃ products w1,
      productBuilder.getProducts (constantEnv 3) sampleProducts 3 emptyWorld
        = Result.ok products w1
      ∧ w1.requests
        = [] ++ [samplePageRequest 0, samplePageRequest 1, samplePageRequest 2] :=
  productBuilder.getProducts_requests_each_page_once (constantEnv 3) sampleProducts emptyWorld
    3 3 (fun _ => rfl) (fun _ _ => ⟨"200 OK", "page", _, rfl, rfl, rfl⟩) (by decide)

theorem productBuilder.getProductsLoop_advance (env : Env) (b : productBuilder) (w0 : World)
    (page : Nat → GetAllProductsResponse) (k : Nat)
    (hnew : ∀ j, j < k → env.newRequestError "GET" (b.listRequest env (j : Int)).url = none)
    (hresp : ∀ j, j < k → ∃ status body,
      env.roundTrip (w0.requests ++ (List.range j).map (fun (t : Nat) => b.listRequest env (t : Int)))
          (b.listRequest env (j : Int)) = HttpResult.response 200 status (Except.ok body)
      ∧ env.unmarshalProducts body = Except.ok (page j))
    (hcont : ∀ j, j + 1 < k → ((j + 1 : Nat) : Int) < (page j).TotalPages) :
    ∀ (n i : Nat) (totalPages : Int) (products : List Product) (fuel : Nat),
      i + n + 1 = k → (i : Int) < totalPages →
      b.getProductsLoop env (fuel + n + 1) (i : Int) totalPages products
          { w0 with requests :=
              w0.requests ++ (List.range i).map (fun (t : Nat) => b.listRequest env (t : Int)) }
        = b.getProductsLoop env fuel (k : Int) (page (k - 1)).TotalPages
            (products ++ ((List.range' i (n + 1)).map (fun j => (page j).Products)).flatten)
            { w0 with requests :=
                w0.requests ++ (List.range k).map (fun (t : Nat) => b.listRequest env (t : Int)) } := by
  intro n
  induction n with
  | zero =>
    intro i totalPages products fuel hik hi
    have hik1 : i < k := by omega
    obtain ⟨status, body, hr, hd⟩ := hresp i hik1
    rw [productBuilder.getProductsLoop_step env b fuel _ _ _ _ status body (page i) hi
      (hnew i hik1) hr hd]
    have hk : k = i + 1 := by omega
    subst hk
    simp [List.range_succ]
  | succ n ih =>
    intro i totalPages products fuel hik hi
    have hik1 : i < k := by omega
    obtain ⟨status, body, hr, hd⟩ := hresp i hik1
    have hstep := productBuilder.getProductsLoop_step env b (fuel + n + 1) _ _ products
      { w0 with requests :=
          w0.requests ++ (List.range i).map (fun (t : Nat) => b.listRequest env (t : Int)) }
      status body (page i) hi (hnew i hik1) hr hd
    have hworld : ({ w0 with requests :=
        w0.requests ++ (List.range i).map (fun (t : Nat) => b.listRequest env (t : Int)) }
          : World).requests ++ [b.listRequest env (i : Int)]
        = w0.requests ++ (List.range (i + 1)).map (fun (t : Nat) => b.listRequest env (t : Int)) := by
      simp [List.range_succ]
    simp only [hworld] at hstep
    rw [show ((i : Int) + 1) = ((i + 1 : Nat) : Int) by push_cast; rfl] at hstep
    have hnext := ih (i + 1) (page i).TotalPages (products ++ (page i).Products) fuel (by omega)
      (hcont i (by omega))
    rw [show fuel + (n + 1) + 1 = fuel + n + 1 + 1 from rfl, hstep, hnext]
    simp [List.range'_succ]

/-- C10: with list requests that can be built, (1) `getProducts` always sends
the request for page 0 first; (2) when the requests for the pages
`0, ..., k-1` have been answered 200 with bodies decoding to `page 0, ...,
page (k-1)`, each but the last announcing more pages than asked for so far,
what `getProducts` does next depends on `total_pages` of the last response
alone: if `k < (page (k-1)).TotalPages` the request for page `k` is the next
one sent, otherwise the fetch returns the products of these `k` pages without
a further request; (3) when every list response is 200, decodable and
announces at most `B` pages, the fetch returns, given fuel for `max 1 B`
iterations, after `k` requests with `1 ≤ k ≤ max 1 B`, `k` being the first
number of pages at which rule (2) stops. -/
theorem productBuilder.getProducts_rereads_bound (env : Env) (b : productBuilder)
    (hnew : ∀ i : Int, env.newRequestError "GET" (b.listRequest env i).url = none) :
    (∀ (fuel : Nat) (w : World), ∃ tail,
        (b.getProducts env (fuel + 1) w).world.requests
          = w.requests ++ b.listRequest env 0 :: tail)
    ∧ (∀ (w : World) (page : Nat → GetAllProductsResponse) (k fuel : Nat),
        1 ≤ k →
        (∀ j, j < k → ∃ status body,
          env.roundTrip
              (w.requests ++ (List.range j).map (fun (t : Nat) => b.listRequest env (t : Int)))
              (b.listRequest env (j : Int)) = HttpResult.response 200 status (Except.ok body)
          ∧ env.unmarshalProducts body = Except.ok (page j)) →
        (∀ j, j + 1 < k → ((j + 1 : Nat) : Int) < (page j).TotalPages) →
        ((k : Int) < (page (k - 1)).TotalPages → k + 1 ≤ fuel → ∃ tail,
          (b.getProducts env fuel w).world.requests
            = w.requests
              ++ (List.range (k + 1)).map (fun (t : Nat) => b.listRequest env (t : Int)) ++ tail)
        ∧ (¬ (k : Int) < (page (k - 1)).TotalPages → k ≤ fuel →
          b.getProducts env fuel w
            = Result.ok (((List.range k).map (fun j => (page j).Products)).flatten)
                { w with requests := w.requests
                    ++ (List.range k).map (fun (t : Nat) => b.listRequest env (t : Int)) }))
    ∧ (∀ (B fuel : Nat) (w : World),
        (∀ (hist : List Request) (i : Int), ∃ status body e,
          env.roundTrip hist (b.listRequest env i)
            = HttpResult.response 200 status (Except.ok body)
          ∧ env.unmarshalProducts body = Except.ok e ∧ e.TotalPages ≤ (B : Int)) →
        max 1 B ≤ fuel →
        ∃ (k : Nat) (page : Nat → GetAllProductsResponse),
          1 ≤ k ∧ k ≤ max 1 B
          ∧ (∀ j, j < k → ∃ status body,
              env.roundTrip
                  (w.requests
                    ++ (List.range j).map (fun (t : Nat) => b.listRequest env (t : Int)))
                  (b.listRequest env (j : Int))
                = HttpResult.response 200 status (Except.ok body)
              ∧ env.unmarshalProducts body = Except.ok (page j))
          ∧ (∀ j, j + 1 < k → ((j + 1 : Nat) : Int) < (page j).TotalPages)
          ∧ ¬ (k : Int) < (page (k - 1)).TotalPages
          ∧ b.getProducts env fuel w
            = Result.ok (((List.range k).map (fun j => (page j).Products)).flatten)
                { w with requests := w.requests
                    ++ (List.range k).map (fun (t : Nat) => b.listRequest env (t : Int)) }) := by
  refine ⟨?_, ?_, ?_⟩
  · intro fuel w
    exact productBuilder.getProductsLoop_first_request env b fuel 0 1 [] w (by decide) (hnew 0)
  · intro w page k fuel hk hresp hcont
    constructor
    · intro hmore hfuel
      obtain ⟨fuel1, rfl⟩ : ∃ fuel1, fuel = fuel1 + 1 + (k - 1) + 1 := ⟨fuel - k - 1, by omega⟩
      have hadv := productBuilder.getProductsLoop_advance env b w page k (fun j _ => hnew _)
        hresp hcont (k - 1) 0 1 [] (fuel1 + 1) (by omega) (by decide)
      have hw : ({ w with requests :=
          w.requests ++ (List.range 0).map (fun (t : Nat) => b.listRequest env (t : Int)) }
            : World) = w := by
        cases w; simp
      rw [hw] at hadv
      unfold productBuilder.getProducts
      rw [show ((0 : Nat) : Int) = 0 from rfl] at hadv
      rw [hadv]
      obtain ⟨tail, htail⟩ := productBuilder.getProductsLoop_first_request env b fuel1 (k : Int)
        (page (k - 1)).TotalPages
        ([] ++ ((List.range' 0 (k - 1 + 1)).map (fun j => (page j).Products)).flatten)
        { w with requests :=
            w.requests ++ (List.range k).map (fun (t : Nat) => b.listRequest env (t : Int)) }
        hmore (hnew _)
      refine ⟨tail, ?_⟩
      rw [htail]
      simp [List.range_succ]
    · intro hstop hfuel
      exact productBuilder.getProducts_pages env b w page k fuel hk (fun j _ => hnew _) hresp
        hcont hstop hfuel
  · intro B fuel w hserve hfuel
    obtain ⟨page, hgood, hpage⟩ := productBuilder.exists_pages env b w
      (fun e => e.TotalPages ≤ (B : Int)) hserve
    have hex : ∃ k : Nat, 1 ≤ k ∧ ¬ ((k : Int) < (page (k - 1)).TotalPages) := by
      refine ⟨max 1 B, by omega, ?_⟩
      have := hgood (max 1 B - 1)
      simp only at this
      omega
    classical
    have hspec := Nat.find_spec hex
    have hle : Nat.find hex ≤ max 1 B := Nat.find_min' hex (by
      refine ⟨by omega, ?_⟩
      have := hgood (max 1 B - 1)
      simp only at this
      omega)
    have hcont : ∀ j, j + 1 < Nat.find hex → ((j + 1 : Nat) : Int) < (page j).TotalPages := by
      intro j hj
      by_contra hcon
      exact Nat.find_min hex hj ⟨by omega, by simpa using hcon⟩
    have h := productBuilder.getProducts_pages env b w page (Nat.find hex) fuel hspec.1
      (fun j _ => hnew _) (fun j _ => hpage j) hcont hspec.2 (by omega)
    exact ⟨Nat.find hex, page, hspec.1, hle, fun j _ => hpage j, hcont, hspec.2, h⟩

theorem productBuilder.getProducts_rereads_bound_witness :
    (∃ tail, (productBuilder.getProducts repeatEnv sampleProducts (0 + 1) emptyWorld).world.requests
        = [] ++ samplePageRequest 0 :: tail)
    ∧ (∃ tail,
        (productBuilder.getProducts repeatEnv sampleProducts 2 emptyWorld).world.requests
          = [] ++ (List.range (1 + 1)).map
              (fun (t : Nat) => sampleProducts.listRequest repeatEnv (t : Int)) ++ tail)
    ∧ productBuilder.getProducts repeatEnv sampleProducts 2 emptyWorld
        = Result.ok [sampleProduct "a" "A", sampleProduct "b" "B", sampleProduct "a" "A again"]
            { emptyWorld with requests := [] ++ [samplePageRequest 0, samplePageRequest 1] }
    ∧ (∃ (k : Nat) (page : Nat → GetAllProductsResponse),
        1 ≤ k ∧ k ≤ max 1 2
        ∧ (∀ j, j < k → ∃ status body,
            (constantEnv 2).roundTrip
                ([] ++ (List.range j).map
                  (fun (t : Nat) => sampleProducts.listRequest (constantEnv 2) (t : Int)))
                (sampleProducts.listRequest (constantEnv 2) (j : Int))
              = HttpResult.response 200 status (Except.ok body)
            ∧ (constantEnv 2).unmarshalProducts body = Except.ok (page j))
        ∧ (∀ j, j + 1 < k → ((j + 1 : Nat) : Int) < (page j).TotalPages)
        ∧ ¬ (k : Int) < (page (k - 1)).TotalPages
        ∧ productBuilder.getProducts (constantEnv 2) sampleProducts 2 emptyWorld
          = Result.ok (((List.range k).map (fun j => (page j).Products)).flatten)
              { emptyWorld with
                requests := [] ++ (List.range k).map
                  (fun (t : Nat) => sampleProducts.listRequest (constantEnv 2) (t : Int)) }) :=
  ⟨(productBuilder.getProducts_rereads_bound repeatEnv sampleProducts (fun _ => rfl)).1 0
      emptyWorld,
    ((productBuilder.getProducts_rereads_bound repeatEnv sampleProducts (fun _ => rfl)).2.1
      emptyWorld repeatPage 1 2 (by decide)
      (fun j hj => by
        have h0 : j = 0 := by omega
        subst h0
        exact ⟨"200 OK", "first", rfl, rfl⟩)
      (fun j hj => absurd hj (by omega))).1 (by decide) (by decide),
    ((productBuilder.getProducts_rereads_bound repeatEnv sampleProducts (fun _ => rfl)).2.1
      emptyWorld repeatPage 2 2 (by decide)
      (fun j hj => by
        interval_cases j
        · exact ⟨"200 OK", "first", rfl, rfl⟩
        · exact ⟨"200 OK", "second", rfl, rfl⟩)
      (fun j hj => by
        have h0 : j = 0 := by omega
        subst h0
        decide)).2 (by decide) (by decide),
    (productBuilder.getProducts_rereads_bound (constantEnv 2) sampleProducts (fun _ => rfl)).2.2
      2 2 emptyWorld (fun _ _ => ⟨"200 OK", "page", _, rfl, rfl, by decide⟩) (by decide)⟩

end K8sComm2Hugo
